import Mathlib

/-!
Verification development for the nucleus3d repository.

The repository contains two generations of an entity-component layer over
the Babylon.js scene graph:

* the "bframe" entity (`src/core/Entity.ts`), and
* the "nucleus" entity (an unnamed source file of the same repository), plus
  the context helper `src/core/common/NucleusHelper.ts`.

This file gives a shallow embedding of the operations the specification
talks about.  Host-engine handles (engines, scenes, meshes/nodes, observers,
components) are modelled by natural-number identifiers; the object graph of
entities is modelled as a world state mapping entity ids to entity records,
and every effectful TypeScript method becomes an explicit state-passing
function returning `Except JsErr` (a thrown JavaScript error becomes
`.error`).  Recursion over the (possibly cyclic) object graph uses an
explicit fuel parameter; `outOfFuel` plays the role of stack exhaustion.
-/

/-- Errors thrown by the modelled TypeScript code.  `typeError` is a
JavaScript `TypeError` from dereferencing `undefined`. -/
inductive JsErr where
  | outOfFuel
  | typeError
  | notMounted
  | alreadyMounted
  | compAlreadyMounted
  | compNotMounted
  | sceneDisposed
deriving DecidableEq, Repr

/-- Model of a TypeScript `forEach` loop whose body can throw: fold the body
over the list, propagating the first error. -/
def exceptFold {σ α : Type} (f : σ → α → Except JsErr σ) : σ → List α → Except JsErr σ
  | s, [] => .ok s
  | s, a :: l =>
    match f s a with
    | .error er => .error er
    | .ok s' => exceptFold f s' l

/-- Convenience: the successful result of an `Except` computation, with a
fallback value for the error case. -/
def exceptGetD {σ : Type} : Except JsErr σ → σ → σ
  | .ok s, _ => s
  | .error _, d => d

/-- Model of JavaScript `list.splice(list.indexOf(x), 1)`: when `x` occurs,
its first occurrence is removed; when it does not, `indexOf` is `-1` and
`splice(-1, 1)` removes the last element of the list. -/
def jsSpliceOut (l : List Nat) (x : Nat) : List Nat :=
  if x ∈ l then l.erase x else l.dropLast

/-- Insert a node id into the disposed set unless already present (disposing
an already-disposed Babylon node is a no-op). -/
def insertIfAbsent (l : List Nat) (n : Nat) : List Nat :=
  if n ∈ l then l else l ++ [n]

/-- Remove a registered observer from an observable's observer list;
`Observable.remove` of `undefined`/`null` is a no-op. -/
def removeObserver (l : List Nat) : Option Nat → List Nat
  | none => l
  | some o => l.filter (fun x => x ≠ o)

namespace Bframe

/-- State of one bframe entity (`src/core/Entity.ts`).  `parent`, `children`
and `components` mirror the fields `_parent`, `children` and `components`;
`node` is the owned Babylon mesh (`_node`), `obs` the stored before-render
observer (`_onBeforeRenderObservable`), `ctx` the stored `context`
(identified by an id; its contents are modelled separately for the context
claims).  `nid` is the id of the mesh this entity's `onMount` returns and
`oid` the id `Observable.add` hands out for this entity's before-render
observer, so that mounting needs no global counter.  Component objects are
identified by ids; their own state lives in the world. -/
structure BEntity where
  parent : Option Nat := none
  children : List Nat := []
  comps : List Nat := []
  isMounted : Bool := false
  node : Option Nat := none
  obs : Option Nat := none
  ctx : Option Nat := none
  nid : Nat := 0
  oid : Nat := 0
deriving DecidableEq, Repr

/-- World state for the bframe model: the entity graph, the set of disposed
node ids, the scene's before-render observer list, and the set of component
ids that are currently mounted. -/
structure BWorld where
  entities : Nat → BEntity
  disposed : List Nat := []
  sceneObs : List Nat := []
  mountedComps : List Nat := []

/-- Update the record of one entity in the world. -/
def updE (w : BWorld) (e : Nat) (f : BEntity → BEntity) : BWorld :=
  { w with entities := fun j => if j = e then f (w.entities e) else w.entities j }

/-- Modelled from the spec: `Component.unmount` (the `Component` source file
is not under `src/`) clears the component's mounted state; the loop
`this.components.forEach(c => c.unmount())` therefore removes the entity's
components from the world's mounted-component set. -/
def unmountComponentsOf (w : BWorld) (e : Nat) : BWorld :=
  { w with mountedComps := w.mountedComps.filter (fun c => c ∉ (w.entities e).comps) }

/-- Lines 116-118 of `Entity.ts`: remove the stored before-render observer
from the scene observable and clear the field. -/
def removeObsOf (w : BWorld) (e : Nat) : BWorld :=
  let w1 := { w with sceneObs := removeObserver w.sceneObs (w.entities e).obs }
  updE w1 e (fun en => { en with obs := none })

/-- Line 120 of `Entity.ts`: `this._node.dispose()`. -/
def bDisposeStep (w : BWorld) (n : Nat) : BWorld :=
  { w with disposed := insertIfAbsent w.disposed n }

/-- Lines 121-122 of `Entity.ts`: `this._node = undefined; this._isMounted = false`. -/
def bClearNodeStep (w : BWorld) (e : Nat) : BWorld :=
  updE w e (fun en => { en with node := none, isMounted := false })

/-- Part of `Entity.unmount` of the bframe entity after the recursive child
loop (`src/core/Entity.ts` lines 109-124), starting from the world the loop
produced: unmount the components, remove the before-render observer, dispose
and clear the node (`this._node.dispose()` throws a `TypeError` when `_node`
is `undefined`), clear `_isMounted`, and finally call
`this.parent.onChildrenUpdated()` — an unchecked member access that throws a
`TypeError` when the entity has no parent.  Note that the bframe `unmount`
never removes the entity from its parent's `children` list, and never clears
`_parent`. -/
def bUnmountTail (w1 : BWorld) (e : Nat) : Except JsErr BWorld :=
  let w3 := removeObsOf (unmountComponentsOf w1 e) e
  match (w3.entities e).node with
  | none => .error .typeError
  | some n =>
    let w5 := bClearNodeStep (bDisposeStep w3 n) e
    match (w5.entities e).parent with
    | none => .error .typeError
    | some _ => .ok w5

/-- `Entity.unmount` of the bframe entity (`src/core/Entity.ts` lines
101-125): `willUnmount` (a no-op in the base class), the recursive
`children.forEach(child => child.unmount())` loop — with no guard on the
child's mount state — followed by `bUnmountTail`. -/
def bUnmount : Nat → BWorld → Nat → Except JsErr BWorld
  | 0, _, _ => .error .outOfFuel
  | fuel + 1, w, e =>
    match exceptFold (fun acc c => bUnmount fuel acc c) w ((w.entities e).children) with
    | .error er => .error er
    | .ok w1 => bUnmountTail w1 e

/-- `Entity._mount(context)` of the bframe entity (`src/core/Entity.ts`
lines 181-218) in the world model: when not yet mounted, store the context
and the node `onMount` creates (`onMount` reads `this.context.scene`, a
`TypeError` when the context is `undefined`), mount every child with
`this.context`, then add and store a fresh before-render observer, set
`_isMounted` and mount the attached components; when already mounted, only
the children loop runs (after the `this._node.parent` read of line 189,
a `TypeError` when `_node` is `undefined`), passing the stored
`this.context`.  (The `_node.parent` re-wiring and `_updateCoreProps`
concern the host scene graph and props only; `didMount` and `ref` are
no-ops in the base class.) -/
def bMountPre (w : BWorld) (e cx : Nat) : BWorld :=
  updE w e (fun en => { en with ctx := some cx, node := some en.nid })

def bMountPost (w2 : BWorld) (e : Nat) : BWorld :=
  let w3 := updE w2 e (fun en => { en with obs := some en.oid, isMounted := true })
  { w3 with
    sceneObs := w3.sceneObs ++ [(w3.entities e).oid],
    mountedComps := w3.mountedComps ++ (w3.entities e).comps }

def bMountW : Nat → BWorld → Nat → Option Nat → Except JsErr BWorld
  | 0, _, _, _ => .error .outOfFuel
  | fuel + 1, w, e, ctxArg =>
    if (w.entities e).isMounted then
      match (w.entities e).node with
      | none => .error .typeError
      | some _ =>
        exceptFold (fun acc c => bMountW fuel acc c ((w.entities e).ctx)) w
          ((w.entities e).children)
    else
      match ctxArg with
      | none => .error .typeError
      | some cx =>
        match exceptFold (fun acc c => bMountW fuel acc c (some cx)) (bMountPre w e cx)
            ((w.entities e).children) with
        | .error er => .error er
        | .ok w2 => .ok (bMountPost w2 e)

/-- `Entity.mountChild` of the bframe entity (`src/core/Entity.ts` lines
139-156): throw when the child is already mounted, push the child onto
`this.children`, set the child's `_parent` to this entity,
`child.parentUpdated(...)` (a no-op in the base class), and when this
entity is mounted set the child's `childContext` (the base
`getChildContext` returns `undefined`; not tracked) and run
`child._mount(this.context)` followed by the no-op `onChildrenUpdated`. -/
def bAttachChild (w : BWorld) (p c : Nat) : BWorld :=
  updE (updE w p (fun pe => { pe with children := pe.children ++ [c] })) c
    (fun ce => { ce with parent := some p })

def bMountChild (fuel : Nat) (w : BWorld) (p c : Nat) : Except JsErr BWorld :=
  if (w.entities c).isMounted then .error .alreadyMounted
  else
    let w2 := bAttachChild w p c
    if (w2.entities p).isMounted then bMountW fuel w2 c ((w2.entities p).ctx)
    else .ok w2

/-- Facts about the world that `_mount` never disturbs: parent pointers and
children lists of every entity are left exactly as they were. -/
def MFrame (w w' : BWorld) : Prop :=
  (∀ j, (w'.entities j).parent = (w.entities j).parent) ∧
  (∀ j, (w'.entities j).children = (w.entities j).children)

/-- Facts about the world that `unmount` never disturbs: parent pointers and
children lists are left untouched (the bframe `unmount` forgets to detach
the entity from its parent), node references are only ever cleared, and
disposal is monotone. -/
def Frame (w w' : BWorld) : Prop :=
  (∀ j, (w'.entities j).parent = (w.entities j).parent) ∧
  (∀ j, (w'.entities j).children = (w.entities j).children) ∧
  (∀ j, (w'.entities j).node = (w.entities j).node ∨ (w'.entities j).node = none) ∧
  (∀ n, n ∈ w.disposed → n ∈ w'.disposed)

end Bframe

namespace Nucleus

/-- State of one nucleus entity (the unnamed `Entity.ts` of the nucleus
generation).  `obs` is `_onBeforeRenderObserver`, `dObs` is
`_onDisposeObserver`; `comps` are the ids held by the entity's
`InternalComponentCollection`; `ctx` is the stored `_context` (an id; the
bundle's contents are modelled separately for the context claims).  `nid`
is the id of the mesh this entity's `onMount` returns and `oid`/`doid` the
ids `Observable.add` hands out for its before-render and dispose
observers, so that mounting needs no global counter. -/
structure NEntity where
  parent : Option Nat := none
  children : List Nat := []
  comps : List Nat := []
  isMounted : Bool := false
  node : Option Nat := none
  obs : Option Nat := none
  dObs : Option Nat := none
  ctx : Option Nat := none
  nid : Nat := 0
  oid : Nat := 0
  doid : Nat := 0
deriving DecidableEq, Repr

/-- World state for the nucleus model.  `nodeEntity` is the per-node
`__entity__` back-reference written by `Entity.set`; `nodeObs` maps a node id
to its `onDisposeObservable` observer list; `registered` is the scene
entity's registry of mounted entities. -/
structure NWorld where
  entities : Nat → NEntity
  disposed : List Nat := []
  sceneObs : List Nat := []
  nodeObs : Nat → List Nat := fun _ => []
  nodeEntity : Nat → Option Nat := fun _ => none
  mountedComps : List Nat := []
  registered : List Nat := []

/-- Update the record of one entity in the world. -/
def updE (w : NWorld) (e : Nat) (f : NEntity → NEntity) : NWorld :=
  { w with entities := fun j => if j = e then f (w.entities e) else w.entities j }

/-- Modelled from the spec: `InternalComponentCollection.unmount` (the
collection's source file is not under `src/`) unmounts every component of
the collection, clearing each one's mounted state. -/
def unmountComponentsOf (w : NWorld) (e : Nat) : NWorld :=
  { w with mountedComps := w.mountedComps.filter (fun c => c ∉ (w.entities e).comps) }

/-- Line 162: remove the stored before-render observer from the scene
observable. -/
def nRemoveSceneObsStep (w : NWorld) (e : Nat) : NWorld :=
  { w with sceneObs := removeObserver w.sceneObs (w.entities e).obs }

/-- Line 163: `this.node.onDisposeObservable.remove(this._onDisposeObserver)`
for the node `n` the entity holds. -/
def nRemoveNodeObsStep (w : NWorld) (e n : Nat) : NWorld :=
  { w with nodeObs := fun m =>
      if m = n then removeObserver (w.nodeObs n) ((w.entities e).dObs)
      else w.nodeObs m }

/-- Lines 164-165: clear both observer fields. -/
def nClearObsFieldsStep (w : NWorld) (e : Nat) : NWorld :=
  updE w e (fun en => { en with obs := none, dObs := none })

/-- Lines 167-169: dispose the node unless it is already disposed. -/
def nDisposeStep (w : NWorld) (n : Nat) : NWorld :=
  if n ∈ w.disposed then w else { w with disposed := w.disposed ++ [n] }

/-- Line 170: `Entity.set(this._node, undefined)` clears the node's
`__entity__` back-reference. -/
def nClearNodeEntityStep (w : NWorld) (n : Nat) : NWorld :=
  { w with nodeEntity := fun m => if m = n then none else w.nodeEntity m }

/-- Lines 171-172: `this._node = undefined; this._isMounted = false`. -/
def nClearNodeStep (w : NWorld) (e : Nat) : NWorld :=
  updE w e (fun en => { en with node := none, isMounted := false })

/-- Lines 174-177: when a parent exists, splice this entity out of the
parent's `children` list at `indexOf(this)`. -/
def nSpliceParentStep (w : NWorld) (e : Nat) : NWorld :=
  match (w.entities e).parent with
  | some p => updE w p (fun pe => { pe with children := jsSpliceOut pe.children e })
  | none => w

/-- Lines 179-180, modelled from the spec: `_unregisterEntity` (internal
scene-entity code not under `src/`) removes the entity from the scene's
registry of mounted entities. -/
def nUnregisterStep (w : NWorld) (e : Nat) : NWorld :=
  { w with registered := w.registered.filter (fun x => x ≠ e) }

/-- Part of the nucleus `Entity.unmount` after the recursive child loop
(lines 159-181): unmount the components, remove the before-render observer,
remove the dispose observer from the node's observable (reading `this.node`
— a `TypeError` when `_node` is `undefined`), clear both observer fields,
dispose the node unless already disposed, clear the `__entity__`
back-reference, clear `_node` and `_isMounted`, splice the entity out of its
parent's `children` list when a parent exists, and unregister from the
scene entity. -/
def nUnmountTail (w1 : NWorld) (e : Nat) : Except JsErr NWorld :=
  let w3 := nRemoveSceneObsStep (unmountComponentsOf w1 e) e
  match (w3.entities e).node with
  | none => .error .typeError
  | some n =>
    let w8 := nClearNodeStep
      (nClearNodeEntityStep (nDisposeStep (nClearObsFieldsStep (nRemoveNodeObsStep w3 e n) e) n) n) e
    .ok (nUnregisterStep (nSpliceParentStep w8 e) e)

/-- `Entity.unmount` of the nucleus entity (lines 145-181 of the unnamed
nucleus `Entity.ts`): throw when not mounted, `willUnmount` (a no-op in the
base class), recursively unmount each currently mounted child, then
`nUnmountTail`. -/
def nUnmount : Nat → NWorld → Nat → Except JsErr NWorld
  | 0, _, _ => .error .outOfFuel
  | fuel + 1, w, e =>
    if (w.entities e).isMounted then
      match exceptFold
          (fun acc c => if (acc.entities c).isMounted then nUnmount fuel acc c else .ok acc)
          w ((w.entities e).children) with
      | .error er => .error er
      | .ok w1 => nUnmountTail w1 e
    else .error .notMounted

/-- `Entity._mount(context)` of the nucleus entity (lines 330-367): throw
when already mounted; store the context and the node `onMount` creates
(`onMount` reads `this.context.scene`, a `TypeError` when the context is
`undefined`); write the node's `__entity__` back-reference when none is
present; set `_isMounted`; mount every child with `this.context` (a child
that is somehow already mounted makes the recursive `_mount` throw); mount
the components (modelled from the spec:
`InternalComponentCollection.mount` marks them mounted); `didMount` (a
no-op in the base class); add and store the before-render and node-dispose
observers; and register with the scene entity (`_registerEntity` is
internal scene-entity code not under `src/`, modelled from the spec as
appending to the registry).  (The `_node.parent` re-wiring of lines
341-348 concerns the host scene graph only.) -/
def nMountPre (w : NWorld) (e cx : Nat) : NWorld :=
  let w1 := updE w e (fun en => { en with ctx := some cx, node := some en.nid })
  let nd := (w.entities e).nid
  let w2 :=
    if (w1.nodeEntity nd).isSome then w1
    else { w1 with nodeEntity := fun m => if m = nd then some e else w1.nodeEntity m }
  updE w2 e (fun en => { en with isMounted := true })

def nMountPost (w4 : NWorld) (e nd : Nat) : NWorld :=
  let w5 := { w4 with mountedComps := w4.mountedComps ++ (w4.entities e).comps }
  let w6 := updE w5 e (fun en => { en with obs := some en.oid, dObs := some en.doid })
  let w7 := { w6 with
    sceneObs := w6.sceneObs ++ [(w6.entities e).oid],
    nodeObs := fun m =>
      if m = nd then w6.nodeObs nd ++ [(w6.entities e).doid] else w6.nodeObs m }
  { w7 with registered := w7.registered ++ [e] }

def nMountW : Nat → NWorld → Nat → Option Nat → Except JsErr NWorld
  | 0, _, _, _ => .error .outOfFuel
  | fuel + 1, w, e, ctxArg =>
    if (w.entities e).isMounted then .error .alreadyMounted
    else
      match ctxArg with
      | none => .error .typeError
      | some cx =>
        match exceptFold (fun acc c => nMountW fuel acc c (some cx)) (nMountPre w e cx)
            ((w.entities e).children) with
        | .error er => .error er
        | .ok w4 => .ok (nMountPost w4 e ((w.entities e).nid))

/-- `Entity.mountChild` of the nucleus entity (lines 195-211): throw when
the child is already mounted, push the child onto `this.children`, set the
child's `_parent`, `child.parentUpdated(...)` (a no-op in the base class),
and when this entity is mounted set the child's `_parentContext` (the base
`getChildContext` returns `undefined`; not tracked) and run
`child._mount(this.context)`. -/
def nAttachChild (w : NWorld) (p c : Nat) : NWorld :=
  updE (updE w p (fun pe => { pe with children := pe.children ++ [c] })) c
    (fun ce => { ce with parent := some p })

def nMountChild (fuel : Nat) (w : NWorld) (p c : Nat) : Except JsErr NWorld :=
  if (w.entities c).isMounted then .error .alreadyMounted
  else
    let w2 := nAttachChild w p c
    if (w2.entities p).isMounted then nMountW fuel w2 c ((w2.entities p).ctx)
    else .ok w2

/-- Facts about the world that the nucleus `_mount` never disturbs: parent
pointers and children lists of every entity are left exactly as they
were. -/
def NMFrame (w w' : NWorld) : Prop :=
  (∀ j, (w'.entities j).parent = (w.entities j).parent) ∧
  (∀ j, (w'.entities j).children = (w.entities j).children)

/-- Facts about the world that the nucleus `unmount` never disturbs: parent
pointers are untouched, the number of occurrences of any entity in any
children list never grows, node references are only ever cleared, and
disposal is monotone. -/
def Frame (w w' : NWorld) : Prop :=
  (∀ j, (w'.entities j).parent = (w.entities j).parent) ∧
  (∀ j x, ((w'.entities j).children).count x ≤ ((w.entities j).children).count x) ∧
  (∀ j, (w'.entities j).node = (w.entities j).node ∨ (w'.entities j).node = none) ∧
  (∀ n, n ∈ w.disposed → n ∈ w'.disposed)

end Nucleus

/-- A mounted bframe parent (id 0, node 20, observer 7) with one mounted
leaf child (id 1, node 10, observer 5). -/
def bDemoWorld : Bframe.BWorld :=
  { entities := fun j =>
      if j = 0 then { children := [1], isMounted := true, node := some 20, obs := some 7 }
      else if j = 1 then { parent := some 0, isMounted := true, node := some 10, obs := some 5 }
      else {},
    sceneObs := [5, 7] }

/-- A mounted bframe entity with no parent (a root). -/
def bRootWorld : Bframe.BWorld :=
  { entities := fun j =>
      if j = 0 then { isMounted := true, node := some 10, obs := some 5 } else {},
    sceneObs := [5] }

/-- A mounted nucleus parent (id 0) with one mounted leaf child (id 1,
node 10, observers 5 and 6). -/
def nDemoWorld : Nucleus.NWorld :=
  { entities := fun j =>
      if j = 0 then { children := [1], isMounted := true, node := some 20, obs := some 7 }
      else if j = 1 then
        { parent := some 0, isMounted := true, node := some 10, obs := some 5, dObs := some 6 }
      else {},
    sceneObs := [5, 7],
    nodeObs := fun m => if m = 10 then [6] else [],
    nodeEntity := fun m => if m = 10 then some 1 else if m = 20 then some 0 else none,
    registered := [0, 1] }

/-- Children list of entity `p` after `e.unmount()` succeeds in the bframe
world (and `none` when unmount throws). -/
def bChildrenAfterUnmount (fuel : Nat) (w : Bframe.BWorld) (e p : Nat) : Option (List Nat) :=
  match Bframe.bUnmount fuel w e with
  | .ok w' => some ((w'.entities p).children)
  | .error _ => none

/-- A mounted bframe parent (id 0, context 0) with one mounted child (id 1)
and a fresh unmounted entity (id 2) ready to be mounted as a second
child. -/
def bMCWorld : Bframe.BWorld :=
  { entities := fun j =>
      if j = 0 then
        { children := [1], isMounted := true, node := some 20, obs := some 7, ctx := some 0 }
      else if j = 1 then
        { parent := some 0, isMounted := true, node := some 10, obs := some 5 }
      else if j = 2 then { nid := 30, oid := 9 }
      else {},
    sceneObs := [5, 7] }

/-- A mounted nucleus parent (id 0, context 0) with one mounted child
(id 1) and a fresh unmounted entity (id 2) ready to be mounted as a second
child. -/
def nMCWorld : Nucleus.NWorld :=
  { entities := fun j =>
      if j = 0 then
        { children := [1], isMounted := true, node := some 20, obs := some 7, ctx := some 0 }
      else if j = 1 then
        { parent := some 0, isMounted := true, node := some 10, obs := some 5, dObs := some 6 }
      else if j = 2 then { nid := 30, oid := 9, doid := 11 }
      else {},
    sceneObs := [5, 7],
    nodeObs := fun m => if m = 10 then [6] else [],
    nodeEntity := fun m => if m = 10 then some 1 else if m = 20 then some 0 else none,
    registered := [0, 1] }

/-- A bframe world of three fresh unmounted entities (ids 0, 1, 2). -/
def bFreshWorld : Bframe.BWorld := { entities := fun _ => {} }

namespace Bframe

/-- Observable state of a single bframe leaf entity together with its
scene's before-render observer list: `obs` is
`_onBeforeRenderObservable`, `sceneObs` the scene observable's observer
list, `nextObs`/`nextNode` fresh-id counters for `Observable.add` and
`onMount`.  Used to model `_mount`/`unmount`/`remount` for one entity with
no children and no attached components (neither affects the entity's own
observer wiring in `Entity.ts` lines 181-218).  `hasParent` records whether
`this.parent` is set (read at the end of `unmount`). -/
structure EState where
  isMounted : Bool := false
  obs : Option Nat := none
  sceneObs : List Nat := []
  nextObs : Nat := 0
  node : Option Nat := none
  nextNode : Nat := 0
  disposed : List Nat := []
  hasParent : Bool := true
deriving DecidableEq, Repr

/-- `Entity._mount` (lines 181-218) for a leaf entity with no components:
when already mounted nothing observable changes (the guarded blocks are
skipped and the children loop is empty); otherwise `onMount` creates a fresh
node, a fresh before-render observer is added to the scene observable and
stored, and `_isMounted` is set.  (Node re-parenting and
`_updateCoreProps`, which do not touch observers or mount state, are not
tracked in this single-entity state.) -/
def mount1 (s : EState) : EState :=
  if s.isMounted then s
  else
    { s with
      node := some s.nextNode, nextNode := s.nextNode + 1,
      obs := some s.nextObs, sceneObs := s.sceneObs ++ [s.nextObs], nextObs := s.nextObs + 1,
      isMounted := true }

/-- `Entity.unmount` (lines 101-125) for a leaf entity with no components:
remove the stored observer from the scene observable (removing `undefined`
is a no-op), clear it, dispose the node (`TypeError` when `_node` is
`undefined`), clear `_node` and `_isMounted`, and finally dereference
`this.parent` (`TypeError` when there is no parent). -/
def unmount1 (s : EState) : Except JsErr EState :=
  let s1 := { s with sceneObs := removeObserver s.sceneObs s.obs, obs := none }
  match s1.node with
  | none => .error .typeError
  | some n =>
    let s2 :=
      { s1 with disposed := insertIfAbsent s1.disposed n, node := none, isMounted := false }
    if s2.hasParent then .ok s2 else .error .typeError

/-- `Entity.remount` (lines 130-137): return early when not mounted,
otherwise `unmount()` followed by `_mount(this.context)`. -/
def remount1 (s : EState) : Except JsErr EState :=
  if s.isMounted then
    match unmount1 s with
    | .error er => .error er
    | .ok s' => .ok (mount1 s')
  else .ok s

/-- The operations of the claim: mount, unmount, remount. -/
inductive EOp where
  | mount
  | unmount
  | remount
deriving DecidableEq, Repr

def stepE (s : EState) : EOp → Except JsErr EState
  | .mount => .ok (mount1 s)
  | .unmount => unmount1 s
  | .remount => remount1 s

/-- Run a sequence of mount/unmount/remount operations, stopping at the
first thrown error. -/
def runE (s : EState) (ops : List EOp) : Except JsErr EState :=
  exceptFold stepE s ops

/-- The wiring invariant: a before-render observer is stored and registered
on the scene observable exactly when the entity is mounted.  When the
entity is mounted, the scene observable holds precisely the stored
observer; when it is unmounted, the stored reference is cleared and no
observer of this entity remains registered — the observable is empty
(in this model the scene observable receives only this entity's
observers), so an `unmount` that failed to call `Observable.remove` would
violate the invariant. -/
def wiredInv (s : EState) : Bool :=
  match s.obs with
  | some o => s.isMounted && s.sceneObs == [o]
  | none => !s.isMounted && s.sceneObs == []

/-- Modelled from the spec (the `IEntityContext` source is not under
`src/`): the context bundle propagated from parent entities to children
holds the host-engine handles and the registrar. -/
structure Ctx6 where
  engine : Nat
  scene : Nat
  registrar : Nat
deriving DecidableEq, Repr

/-- The context stored into a component by `_mountComponent`
(`src/core/Entity.ts` lines 253-261): the entity's engine, scene and node
references (the `entity` back-reference is the tree node itself). -/
structure CompCtx6 where
  engine : Nat
  scene : Nat
  node : Nat
deriving DecidableEq, Repr

mutual

/-- An entity subtree for the `_mount` recursion: `mk mounted ctx nid node
comps children` carries `_isMounted`, the stored `context`, the node id
that this entity's `onMount` returns, the stored `_node`, the stored
contexts of the attached components (`none` before `_mountComponent` runs),
and the child entities. -/
inductive BTree where
  | mk : Bool → Option Ctx6 → Nat → Option Nat → List (Option CompCtx6) → BForest → BTree

inductive BForest where
  | nil : BForest
  | cons : BTree → BForest → BForest

end

mutual

/-- `Entity._mount(context)` (`src/core/Entity.ts` lines 181-218) on a
subtree: when the entity is not yet mounted it stores the context, stores
the node `onMount` returns, mounts every child with `this.context`, sets
`_isMounted`, and runs `_mountComponent` on each attached component, giving
it the entity's engine, scene and node; when the entity is already mounted
only the children loop runs, passing the previously stored `this.context`.
(Node re-parenting, `_updateCoreProps`, `didMount`/`ref` and the
before-render observer — none of which touch contexts — are tracked by the
other models in this file.) -/
def mountT (ctx : Ctx6) : BTree → BTree
  | .mk mounted c nid nd comps children =>
    if mounted then
      .mk mounted c nid nd comps (mountF (c.getD ctx) children)
    else
      .mk true (some ctx) nid (some nid)
        (comps.map (fun _ => some ⟨ctx.engine, ctx.scene, nid⟩))
        (mountF ctx children)

def mountF (ctx : Ctx6) : BForest → BForest
  | .nil => .nil
  | .cons t ts => .cons (mountT ctx t) (mountF ctx ts)

end

mutual

/-- Every entity of the subtree is unmounted. -/
def allUnmountedT : BTree → Bool
  | .mk mounted _ _ _ _ children => !mounted && allUnmountedF children

def allUnmountedF : BForest → Bool
  | .nil => true
  | .cons t ts => allUnmountedT t && allUnmountedF ts

end

mutual

/-- Every entity of the subtree is mounted with context exactly `ctx`
(hence with the same context bundle as its parent), with its node set to
its `onMount` node, and every attached component's stored context holds
that entity's engine, scene and node. -/
def mountedWithT (ctx : Ctx6) : BTree → Bool
  | .mk mounted c nid nd comps children =>
    mounted && c == some ctx && nd == some nid &&
    comps.all (fun cc => cc == some ⟨ctx.engine, ctx.scene, nid⟩) &&
    mountedWithF ctx children

def mountedWithF (ctx : Ctx6) : BForest → Bool
  | .nil => true
  | .cons t ts => mountedWithT ctx t && mountedWithF ctx ts

end

/-- An unmounted parent with two components and one unmounted child with
one component. -/
def demoTree : BTree :=
  .mk false none 1 none [none, none] (.cons (.mk false none 2 none [none] .nil) .nil)

end Bframe

namespace Helper

/-- `INucleusContext` (`src/core/common/NucleusHelper.ts`): the engine, the
per-scene `SystemRegistrar` (identified by a fresh id), and the scene. -/
structure NucCtx where
  engine : Nat
  systemRegistrar : Nat
  scene : Nat
deriving DecidableEq, Repr

/-- Process-wide state seen by `NucleusHelper`: for each scene id the
context stored under the scene's `__nucleus__` key, the id of the next
`SystemRegistrar` to be constructed, each scene's engine
(`scene.getEngine()`), and the set of disposed scenes. -/
structure HState where
  stored : Nat → Option NucCtx
  nextReg : Nat
  engineOf : Nat → Nat
  disposedScenes : List Nat

/-- The `MountingPoint` argument of `getContextFor`: a context object
(anything with a truthy `systemRegistrar`), a mounted entity (whose stored
context is returned), a transform node (resolved via `getScene()` to its
scene's id), or a scene. -/
inductive MountingPoint where
  | context (c : NucCtx)
  | entity (c : NucCtx)
  | transformNode (sceneId : Nat)
  | scene (sceneId : Nat)
deriving DecidableEq, Repr

/-- `NucleusHelper._initializeFor` (lines 42-56): throw when the scene is
disposed, otherwise build a context from the scene's engine, a newly
constructed `SystemRegistrar` and the scene, store it under the scene's
`__nucleus__` key, and return it. -/
def initContextFor (sid : Nat) (s : HState) : Except JsErr (NucCtx × HState) :=
  if sid ∈ s.disposedScenes then .error .sceneDisposed
  else
    .ok (⟨s.engineOf sid, s.nextReg, sid⟩,
      { s with
        stored := fun j => if j = sid then some ⟨s.engineOf sid, s.nextReg, sid⟩ else s.stored j,
        nextReg := s.nextReg + 1 })

/-- `NucleusHelper.getContextFor` (lines 18-40): a context argument is
returned as is; an entity's stored context is returned; otherwise the scene
(directly, or the node's scene) is looked up under its `__nucleus__` key,
initializing a context there when none is present. -/
def getContextFor (mp : MountingPoint) (s : HState) : Except JsErr (NucCtx × HState) :=
  match mp with
  | .context c => .ok (c, s)
  | .entity c => .ok (c, s)
  | .transformNode sid | .scene sid =>
    match s.stored sid with
    | some c => .ok (c, s)
    | none => initContextFor sid s

end Helper

/-- A component as seen by the render loop: its id and its `isEnabled`
flag. -/
structure RComp where
  id : Nat
  isEnabled : Bool
deriving DecidableEq, Repr

/-- Hook invocations observable during one before-render event. -/
inductive REvent where
  | compTick (id : Nat)
  | entityTick
  | compUpdate (id : Nat)
  | entityUpdate
deriving DecidableEq, Repr

/-- The bframe `Entity._onBeforeRender` (`src/core/Entity.ts` lines
263-292) as a trace of hook invocations: `components.forEach(c =>
c.tick())` followed by `this.tick()`.  (The position/rotation/scaling
mirroring of lines 272-291 invokes no component or entity hooks and
involves the host engine's float conversions, so it is outside this
trace.) -/
def bframeRenderTrace (comps : List RComp) : List REvent :=
  comps.foldl (fun tr c => tr ++ [REvent.compTick c.id]) [] ++ [REvent.entityTick]

/-- The nucleus `Entity._onBeforeRender` (lines 369-378) as a trace of hook
invocations: `components.filter(c => c.isEnabled).forEach(...onUpdate...)`
followed by `this.onUpdate()`, each wrapped in `_tryExecute` (exceptions
are logged; the hooks are modelled as returning normally). -/
def nucleusRenderTrace (comps : List RComp) : List REvent :=
  (comps.filter (fun c => c.isEnabled)).foldl (fun tr c => tr ++ [REvent.compUpdate c.id]) []
    ++ [REvent.entityUpdate]

/-- An attached component for the collection model: `id` stands for the
object's reference identity (`indexOf` compares references), `kind` for its
concrete class (`constructor.name`). -/
structure CComp where
  id : Nat
  kind : Nat
deriving DecidableEq, Repr

/-- The bframe `Entity.addComponents` (`src/core/Entity.ts` lines 162-172):
each new component is appended unless the very same instance
(`indexOf(component) !== -1`) is already in the list; `_mountComponent`
side effects do not change the collection. -/
def addComponentsB (cur newC : List CComp) : List CComp :=
  newC.foldl (fun cs c => if cs.any (fun d => d.id = c.id) then cs else cs ++ [c]) cur

/-- The nucleus `Entity.mountComponents` (lines 226-234): for each new
component, throw when a component with the same `constructor.name` is
already mounted, otherwise mount it.  (Modelled from the spec:
`InternalComponentCollection.mountComponent`, whose source is not under
`src/`, adds the component to the collection.) -/
def mountComponentsN (cur newC : List CComp) : Except JsErr (List CComp) :=
  exceptFold
    (fun cs c =>
      if cs.any (fun d => d.kind = c.kind) then .error .compAlreadyMounted
      else .ok (cs ++ [c]))
    cur newC

/-- A JavaScript plain object holding entity props: an insertion-ordered
list of key/value fields.  The claims about cloning only concern scalar
values, so values are numbers. -/
structure JsObj where
  fields : List (Nat × Nat) := []
deriving DecidableEq, Repr

/-- A heap of JavaScript objects: object references are indices below
`size`. -/
structure Heap where
  mem : Nat → JsObj
  size : Nat

def readObj (h : Heap) (r : Nat) : JsObj := h.mem r

/-- Allocate a fresh object, returning the heap and the new reference. -/
def allocObj (h : Heap) (o : JsObj) : Heap × Nat :=
  ({ mem := fun j => if j = h.size then o else h.mem j, size := h.size + 1 }, h.size)

def writeObj (h : Heap) (r : Nat) (o : JsObj) : Heap :=
  { h with mem := fun j => if j = r then o else h.mem j }

/-- JavaScript property write `o[k] = v`: overwrite an existing key in
place, or append a new key at the end. -/
def setField (o : JsObj) (k v : Nat) : JsObj :=
  if o.fields.any (fun p => p.1 = k) then
    ⟨o.fields.map (fun p => if p.1 = k then (k, v) else p)⟩
  else ⟨o.fields ++ [(k, v)]⟩

/-- JavaScript property read `o[k]`. -/
def lookupF (o : JsObj) (k : Nat) : Option Nat := List.lookup k o.fields

/-- Mutate a field of the object behind reference `r`. -/
def heapSetField (h : Heap) (r k v : Nat) : Heap :=
  writeObj h r (setField (readObj h r) k v)

/-- `Object.assign(target, src)`: copy every enumerable field of `src` onto
`target`, in order, mutating `target`. -/
def objAssign (target src : JsObj) : JsObj :=
  src.fields.foldl (fun acc p => setField acc p.1 p.2) target

namespace Bframe

/-- The bframe constructor (`src/core/Entity.ts` lines 23-31):
`this._props = props || {}` — the caller's props object itself is stored
(no clone); only a missing argument allocates a fresh empty object. -/
def constructProps (h : Heap) (arg : Option Nat) : Heap × Nat :=
  match arg with
  | some r => (h, r)
  | none => allocObj h {}

/-- The bframe `updateProps` (lines 220-244) with the base-class
`willUpdate` returning true: `oldProps` is a fresh shallow copy
`Object.assign({}, this.props)`, then `this._props =
Object.assign(this.props, props)` copies the argument's fields into the
existing props object in place — the stored reference does not change.
(The component/`onUpdated`/`notifyChildren` calls run hooks that are
no-ops in the base class and do not touch the props objects.) -/
def updatePropsOp (h : Heap) (pr ar : Nat) : Heap × Nat :=
  let h1 := (allocObj h (readObj h pr)).1
  let h2 := writeObj h1 pr (objAssign (readObj h1 pr) (readObj h1 ar))
  (h2, pr)

end Bframe

namespace Nucleus

/-- The nucleus constructor (lines 131-140): `this._props =
cloneDeep(props) || {}` — the argument is deep-cloned (values here are
scalars, so the clone is a fresh object with the same fields). -/
def constructProps (h : Heap) (arg : Option Nat) : Heap × Nat :=
  match arg with
  | some r => allocObj h (readObj h r)
  | none => allocObj h {}

/-- The nucleus `updateProps` (lines 248-265) with the base-class
`willPropsUpdate` returning true: `oldProps := cloneDeep(this.props)`,
then `this._props = Object.assign(cloneDeep(props), this.props)` — the
argument is cloned into a fresh object and the current props' fields are
then assigned over that clone, so existing keys keep their old values. -/
def updatePropsOp (h : Heap) (pr ar : Nat) : Heap × Nat :=
  let h1 := (allocObj h (readObj h pr)).1
  let a2 := allocObj h1 (readObj h1 ar)
  let h3 := writeObj a2.1 a2.2 (objAssign (readObj a2.1 a2.2) (readObj a2.1 pr))
  (h3, a2.2)

end Nucleus

/-- A one-object heap: the caller's props object `{0: 1}` lives at
reference 0. -/
def demoHeap : Heap := ⟨fun j => if j = 0 then ⟨[(0, 1)]⟩ else {}, 1⟩

/-- A two-object heap: the entity's current props `{1: 10, 2: 20}` at
reference 0 and the caller's new props `{1: 99, 3: 30}` at reference 1. -/
def demoHeap2 : Heap :=
  ⟨fun j => if j = 0 then ⟨[(1, 10), (2, 20)]⟩ else if j = 1 then ⟨[(1, 99), (3, 30)]⟩ else {}, 2⟩


theorem exceptFold_preserve {σ α : Type} (f : σ → α → Except JsErr σ) (P : σ → Prop)
    (hf : ∀ s a s', f s a = .ok s' → P s → P s') :
    ∀ l s s', exceptFold f s l = .ok s' → P s → P s' := by
  intro l
  induction l with
  | nil =>
    intro s s' h hs
    simp only [exceptFold] at h
    cases h
    exact hs
  | cons a l ih =>
    intro s s' h hs
    simp only [exceptFold] at h
    cases hstep : f s a with
    | error er => rw [hstep] at h; cases h
    | ok s1 =>
      rw [hstep] at h
      exact ih s1 s' h (hf s a s1 hstep hs)

theorem not_mem_jsSpliceOut (l : List Nat) (x : Nat) (h : l.count x ≤ 1) :
    x ∉ jsSpliceOut l x := by
  unfold jsSpliceOut
  by_cases hx : x ∈ l
  · rw [if_pos hx]
    have hc : l.count x = 1 := le_antisymm h (List.one_le_count_iff.mpr hx)
    have : (l.erase x).count x = 0 := by
      rw [List.count_erase_self, hc]
    exact List.count_eq_zero.mp this
  · rw [if_neg hx]
    intro hmem
    exact hx ((List.dropLast_sublist l).mem hmem)

theorem count_jsSpliceOut_le (l : List Nat) (x y : Nat) :
    (jsSpliceOut l x).count y ≤ l.count y := by
  unfold jsSpliceOut
  by_cases hx : x ∈ l
  · rw [if_pos hx]
    exact List.Sublist.count_le (l.erase_sublist x) y
  · rw [if_neg hx]
    exact List.Sublist.count_le (List.dropLast_sublist l) y

theorem mem_insertIfAbsent_self (l : List Nat) (n : Nat) : n ∈ insertIfAbsent l n := by
  unfold insertIfAbsent
  by_cases h : n ∈ l
  · rwa [if_pos h]
  · rw [if_neg h]; exact List.mem_append_right l (List.mem_singleton.mpr rfl)

theorem mem_insertIfAbsent_of_mem (l : List Nat) (n m : Nat) (h : m ∈ l) :
    m ∈ insertIfAbsent l n := by
  unfold insertIfAbsent
  by_cases hn : n ∈ l
  · rwa [if_pos hn]
  · rw [if_neg hn]; exact List.mem_append_left _ h

namespace Bframe

theorem updE_entities_self (w : BWorld) (e : Nat) (f : BEntity → BEntity) :
    (updE w e f).entities e = f (w.entities e) := by
  simp [updE]

theorem updE_entities_ne (w : BWorld) (e j : Nat) (f : BEntity → BEntity) (h : j ≠ e) :
    (updE w e f).entities j = w.entities j := by
  simp [updE, h]

theorem frame_refl (w : BWorld) : Frame w w :=
  ⟨fun _ => rfl, fun _ => rfl, fun _ => Or.inl rfl, fun _ h => h⟩

theorem frame_trans {w w' w'' : BWorld} (h1 : Frame w w') (h2 : Frame w' w'') :
    Frame w w'' := by
  obtain ⟨p1, c1, n1, d1⟩ := h1
  obtain ⟨p2, c2, n2, d2⟩ := h2
  refine ⟨fun j => (p2 j).trans (p1 j), fun j => (c2 j).trans (c1 j), fun j => ?_,
    fun n h => d2 n (d1 n h)⟩
  rcases n2 j with h2' | h2'
  · rw [h2']; exact n1 j
  · exact Or.inr h2'

theorem frame_updE (w : BWorld) (e : Nat) (f : BEntity → BEntity)
    (hp : ∀ en, (f en).parent = en.parent)
    (hc : ∀ en, (f en).children = en.children)
    (hn : ∀ en, (f en).node = en.node ∨ (f en).node = none) :
    Frame w (updE w e f) := by
  refine ⟨fun j => ?_, fun j => ?_, fun j => ?_, fun n h => h⟩ <;>
    by_cases hj : j = e <;>
    simp [updE, hj, hp, hc, hn]

theorem frame_unmountComponentsOf (w : BWorld) (e : Nat) :
    Frame w (unmountComponentsOf w e) :=
  ⟨fun _ => rfl, fun _ => rfl, fun _ => Or.inl rfl, fun _ h => h⟩

theorem frame_removeObsOf (w : BWorld) (e : Nat) : Frame w (removeObsOf w e) := by
  unfold removeObsOf
  refine frame_trans
    (show Frame w { w with sceneObs := removeObserver w.sceneObs (w.entities e).obs } from
      ⟨fun _ => rfl, fun _ => rfl, fun _ => Or.inl rfl, fun _ h => h⟩) ?_
  exact frame_updE _ e _ (fun _ => rfl) (fun _ => rfl) (fun _ => Or.inl rfl)

theorem frame_bDisposeStep (w : BWorld) (n : Nat) : Frame w (bDisposeStep w n) :=
  ⟨fun _ => rfl, fun _ => rfl, fun _ => Or.inl rfl,
    fun m hm => mem_insertIfAbsent_of_mem _ n m hm⟩

theorem frame_bClearNodeStep (w : BWorld) (e : Nat) : Frame w (bClearNodeStep w e) :=
  frame_updE _ e _ (fun _ => rfl) (fun _ => rfl) (fun _ => Or.inr rfl)

theorem bUnmountTail_frame (w1 : BWorld) (e : Nat) (w' : BWorld)
    (h : bUnmountTail w1 e = .ok w') : Frame w1 w' := by
  unfold bUnmountTail at h
  dsimp only at h
  cases hnode : ((removeObsOf (unmountComponentsOf w1 e) e).entities e).node with
  | none => rw [hnode] at h; cases h
  | some n =>
    rw [hnode] at h
    dsimp only at h
    cases hpar : ((bClearNodeStep (bDisposeStep (removeObsOf (unmountComponentsOf w1 e) e) n)
        e).entities e).parent with
    | none => rw [hpar] at h; cases h
    | some p =>
      rw [hpar] at h
      cases h
      exact frame_trans (frame_unmountComponentsOf w1 e)
        (frame_trans (frame_removeObsOf _ e)
          (frame_trans (frame_bDisposeStep _ n) (frame_bClearNodeStep _ e)))

theorem unmountComponentsOf_entities (w : BWorld) (e : Nat) :
    (unmountComponentsOf w e).entities = w.entities := rfl

theorem removeObsOf_node (w : BWorld) (e j : Nat) :
    ((removeObsOf w e).entities j).node = (w.entities j).node := by
  by_cases hj : j = e <;> simp [removeObsOf, updE, hj]

theorem removeObsOf_parent (w : BWorld) (e j : Nat) :
    ((removeObsOf w e).entities j).parent = (w.entities j).parent := by
  by_cases hj : j = e <;> simp [removeObsOf, updE, hj]

theorem bClearNodeStep_self (w : BWorld) (e : Nat) :
    (bClearNodeStep w e).entities e = { w.entities e with node := none, isMounted := false } := by
  simp [bClearNodeStep, updE]

theorem bClearNodeStep_parent (w : BWorld) (e j : Nat) :
    ((bClearNodeStep w e).entities j).parent = (w.entities j).parent := by
  by_cases hj : j = e <;> simp [bClearNodeStep, updE, hj]

theorem bClearNodeStep_disposed (w : BWorld) (e : Nat) :
    (bClearNodeStep w e).disposed = w.disposed := rfl

theorem bDisposeStep_entities (w : BWorld) (n : Nat) :
    (bDisposeStep w n).entities = w.entities := rfl

theorem bDisposeStep_disposed (w : BWorld) (n : Nat) :
    (bDisposeStep w n).disposed = insertIfAbsent w.disposed n := rfl

theorem bUnmountTail_spec (w1 : BWorld) (e : Nat) (w' : BWorld)
    (h : bUnmountTail w1 e = .ok w') :
    (∃ n, (w1.entities e).node = some n ∧ n ∈ w'.disposed) ∧
    (w'.entities e).node = none ∧ (w'.entities e).isMounted = false ∧
    (∃ p, (w1.entities e).parent = some p) := by
  unfold bUnmountTail at h
  dsimp only at h
  cases hnode : ((removeObsOf (unmountComponentsOf w1 e) e).entities e).node with
  | none => rw [hnode] at h; cases h
  | some n =>
    rw [hnode] at h
    dsimp only at h
    cases hpar : ((bClearNodeStep (bDisposeStep (removeObsOf (unmountComponentsOf w1 e) e) n)
        e).entities e).parent with
    | none => rw [hpar] at h; cases h
    | some p =>
      rw [hpar] at h
      cases h
      rw [removeObsOf_node, unmountComponentsOf_entities] at hnode
      rw [bClearNodeStep_parent, bDisposeStep_entities, removeObsOf_parent,
        unmountComponentsOf_entities] at hpar
      refine ⟨⟨n, hnode, ?_⟩, ?_, ?_, ⟨p, hpar⟩⟩
      · rw [bClearNodeStep_disposed, bDisposeStep_disposed]
        exact mem_insertIfAbsent_self _ n
      · rw [bClearNodeStep_self]
      · rw [bClearNodeStep_self]

theorem bUnmount_ok_destruct (fuel : Nat) (w : BWorld) (e : Nat) (w' : BWorld)
    (h : bUnmount fuel w e = .ok w') :
    ∃ fuel' w1,
      exceptFold (fun acc c => bUnmount fuel' acc c) w ((w.entities e).children) = .ok w1 ∧
      bUnmountTail w1 e = .ok w' := by
  cases fuel with
  | zero => simp [bUnmount] at h
  | succ fuel =>
    simp only [bUnmount] at h
    cases hfold : exceptFold (fun acc c => bUnmount fuel acc c) w ((w.entities e).children) with
    | error er => rw [hfold] at h; cases h
    | ok w1 =>
      rw [hfold] at h
      dsimp only at h
      exact ⟨fuel, w1, hfold, h⟩

theorem bUnmount_frame :
    ∀ fuel (w : BWorld) (e : Nat) (w' : BWorld), bUnmount fuel w e = .ok w' → Frame w w' := by
  intro fuel
  induction fuel with
  | zero => intro w e w' h; simp [bUnmount] at h
  | succ fuel ih =>
    intro w e w' h
    simp only [bUnmount] at h
    cases hfold : exceptFold (fun acc c => bUnmount fuel acc c) w ((w.entities e).children) with
    | error er => rw [hfold] at h; cases h
    | ok w1 =>
      rw [hfold] at h
      dsimp only at h
      have hw1 : Frame w w1 := by
        refine exceptFold_preserve _ (Frame w) ?_ _ _ _ hfold (frame_refl w)
        intro s a s' hs hP
        exact frame_trans hP (ih s a s' hs)
      exact frame_trans hw1 (bUnmountTail_frame w1 e w' h)

theorem bFold_frame (fuel : Nat) (w : BWorld) (l : List Nat) (w1 : BWorld)
    (h : exceptFold (fun acc c => bUnmount fuel acc c) w l = .ok w1) : Frame w w1 := by
  refine exceptFold_preserve _ (Frame w) ?_ _ _ _ h (frame_refl w)
  intro s a s' hs hP
  exact frame_trans hP (bUnmount_frame fuel s a s' hs)

theorem mframe_refl (w : BWorld) : MFrame w w := ⟨fun _ => rfl, fun _ => rfl⟩

theorem mframe_trans {w w' w'' : BWorld} (h1 : MFrame w w') (h2 : MFrame w' w'') :
    MFrame w w'' :=
  ⟨fun j => (h2.1 j).trans (h1.1 j), fun j => (h2.2 j).trans (h1.2 j)⟩

theorem mframe_updE (w : BWorld) (e : Nat) (f : BEntity → BEntity)
    (hp : ∀ en, (f en).parent = en.parent)
    (hc : ∀ en, (f en).children = en.children) :
    MFrame w (updE w e f) := by
  refine ⟨fun j => ?_, fun j => ?_⟩ <;> by_cases hj : j = e <;> simp [updE, hj, hp, hc]

theorem mframe_bMountPre (w : BWorld) (e cx : Nat) : MFrame w (bMountPre w e cx) :=
  mframe_updE w e _ (fun _ => rfl) (fun _ => rfl)

theorem mframe_bMountPost (w : BWorld) (e : Nat) : MFrame w (bMountPost w e) := by
  unfold bMountPost
  dsimp only
  exact mframe_updE w e (fun en => { en with obs := some en.oid, isMounted := true })
    (fun _ => rfl) (fun _ => rfl)

theorem bMountW_frame :
    ∀ fuel (w : BWorld) (e : Nat) (cx : Option Nat) (w' : BWorld),
      bMountW fuel w e cx = .ok w' → MFrame w w' := by
  intro fuel
  induction fuel with
  | zero => intro w e cx w' h; simp [bMountW] at h
  | succ fuel ih =>
    intro w e cx w' h
    simp only [bMountW] at h
    by_cases hm : (w.entities e).isMounted
    · rw [if_pos hm] at h
      cases hn : (w.entities e).node with
      | none => rw [hn] at h; cases h
      | some nd =>
        rw [hn] at h
        dsimp only at h
        refine exceptFold_preserve _ (MFrame w) ?_ _ _ _ h (mframe_refl w)
        intro s a s' hs hP
        exact mframe_trans hP (ih s a _ s' hs)
    · rw [if_neg hm] at h
      cases cx with
      | none => cases h
      | some cxv =>
        dsimp only at h
        cases hfold : exceptFold (fun acc c => bMountW fuel acc c (some cxv))
            (bMountPre w e cxv) ((w.entities e).children) with
        | error er => rw [hfold] at h; cases h
        | ok w2 =>
          rw [hfold] at h
          dsimp only at h
          cases h
          have h2 : MFrame (bMountPre w e cxv) w2 := by
            refine exceptFold_preserve _ (MFrame (bMountPre w e cxv)) ?_ _ _ _ hfold
              (mframe_refl _)
            intro s a s' hs hP
            exact mframe_trans hP (ih s a _ s' hs)
          exact mframe_trans (mframe_bMountPre w e cxv)
            (mframe_trans h2 (mframe_bMountPost w2 e))

theorem bAttachChild_children (w : BWorld) (p c j : Nat) :
    ((bAttachChild w p c).entities j).children =
      (if j = p then (w.entities p).children ++ [c] else (w.entities j).children) := by
  unfold bAttachChild
  by_cases hjc : j = c
  · subst hjc
    by_cases hj : j = p
    · subst hj
      simp [updE]
    · simp [updE, hj]
  · by_cases hj : j = p
    · subst hj
      simp [updE, hjc]
    · simp [updE, hj, hjc]

theorem bAttachChild_parent (w : BWorld) (p c : Nat) :
    ((bAttachChild w p c).entities c).parent = some p := by
  simp [bAttachChild, updE]

theorem bMountChild_children (fuel : Nat) (w : BWorld) (p c : Nat) (w' : BWorld)
    (h : bMountChild fuel w p c = .ok w') :
    (w'.entities p).children = (w.entities p).children ++ [c] ∧
    (w'.entities c).parent = some p := by
  unfold bMountChild at h
  by_cases hm : (w.entities c).isMounted
  · rw [if_pos hm] at h; cases h
  · rw [if_neg hm] at h
    dsimp only at h
    by_cases hpm : ((bAttachChild w p c).entities p).isMounted
    · rw [if_pos hpm] at h
      have hfr := bMountW_frame fuel _ c _ w' h
      constructor
      · rw [hfr.2 p, bAttachChild_children w p c p, if_pos rfl]
      · rw [hfr.1 c, bAttachChild_parent w p c]
    · rw [if_neg hpm] at h
      cases h
      constructor
      · rw [bAttachChild_children w p c p, if_pos rfl]
      · exact bAttachChild_parent w p c

end Bframe

namespace Nucleus

theorem nupdE_entities_self (w : NWorld) (e : Nat) (f : NEntity → NEntity) :
    (updE w e f).entities e = f (w.entities e) := by
  simp [updE]

theorem nupdE_entities_ne (w : NWorld) (e j : Nat) (f : NEntity → NEntity) (h : j ≠ e) :
    (updE w e f).entities j = w.entities j := by
  simp [updE, h]

theorem nframe_refl (w : NWorld) : Frame w w :=
  ⟨fun _ => rfl, fun _ _ => le_refl _, fun _ => Or.inl rfl, fun _ h => h⟩

theorem nframe_trans {w w' w'' : NWorld} (h1 : Frame w w') (h2 : Frame w' w'') :
    Frame w w'' := by
  obtain ⟨p1, c1, n1, d1⟩ := h1
  obtain ⟨p2, c2, n2, d2⟩ := h2
  refine ⟨fun j => (p2 j).trans (p1 j), fun j x => (c2 j x).trans (c1 j x), fun j => ?_,
    fun n h => d2 n (d1 n h)⟩
  rcases n2 j with h2' | h2'
  · rw [h2']; exact n1 j
  · exact Or.inr h2'

theorem nframe_updE (w : NWorld) (e : Nat) (f : NEntity → NEntity)
    (hp : ∀ en, (f en).parent = en.parent)
    (hc : ∀ en x, ((f en).children).count x ≤ (en.children).count x)
    (hn : ∀ en, (f en).node = en.node ∨ (f en).node = none) :
    Frame w (updE w e f) := by
  refine ⟨fun j => ?_, fun j x => ?_, fun j => ?_, fun n h => h⟩ <;>
    by_cases hj : j = e <;>
    simp [updE, hj, hp, hc, hn]

theorem nframe_unmountComponentsOf (w : NWorld) (e : Nat) :
    Frame w (unmountComponentsOf w e) :=
  ⟨fun _ => rfl, fun _ _ => le_refl _, fun _ => Or.inl rfl, fun _ h => h⟩

theorem frame_nRemoveSceneObsStep (w : NWorld) (e : Nat) :
    Frame w (nRemoveSceneObsStep w e) :=
  ⟨fun _ => rfl, fun _ _ => le_refl _, fun _ => Or.inl rfl, fun _ h => h⟩

theorem frame_nRemoveNodeObsStep (w : NWorld) (e n : Nat) :
    Frame w (nRemoveNodeObsStep w e n) :=
  ⟨fun _ => rfl, fun _ _ => le_refl _, fun _ => Or.inl rfl, fun _ h => h⟩

theorem frame_nClearObsFieldsStep (w : NWorld) (e : Nat) :
    Frame w (nClearObsFieldsStep w e) :=
  nframe_updE w e _ (fun _ => rfl) (fun _ _ => le_refl _) (fun _ => Or.inl rfl)

theorem frame_nDisposeStep (w : NWorld) (n : Nat) : Frame w (nDisposeStep w n) := by
  unfold nDisposeStep
  by_cases h : n ∈ w.disposed
  · rw [if_pos h]; exact nframe_refl w
  · rw [if_neg h]
    exact ⟨fun _ => rfl, fun _ _ => le_refl _, fun _ => Or.inl rfl,
      fun m hm => List.mem_append_left _ hm⟩

theorem frame_nClearNodeEntityStep (w : NWorld) (n : Nat) :
    Frame w (nClearNodeEntityStep w n) :=
  ⟨fun _ => rfl, fun _ _ => le_refl _, fun _ => Or.inl rfl, fun _ h => h⟩

theorem frame_nClearNodeStep (w : NWorld) (e : Nat) : Frame w (nClearNodeStep w e) :=
  nframe_updE w e _ (fun _ => rfl) (fun _ _ => le_refl _) (fun _ => Or.inr rfl)

theorem frame_nSpliceParentStep (w : NWorld) (e : Nat) :
    Frame w (nSpliceParentStep w e) := by
  unfold nSpliceParentStep
  cases hp : (w.entities e).parent with
  | none => exact nframe_refl w
  | some p =>
    exact nframe_updE w p _ (fun _ => rfl)
      (fun en x => count_jsSpliceOut_le en.children e x) (fun _ => Or.inl rfl)

theorem frame_nUnregisterStep (w : NWorld) (e : Nat) : Frame w (nUnregisterStep w e) :=
  ⟨fun _ => rfl, fun _ _ => le_refl _, fun _ => Or.inl rfl, fun _ h => h⟩

theorem nUnmountTail_frame (w1 : NWorld) (e : Nat) (w' : NWorld)
    (h : nUnmountTail w1 e = .ok w') : Frame w1 w' := by
  unfold nUnmountTail at h
  dsimp only at h
  cases hnode : ((nRemoveSceneObsStep (unmountComponentsOf w1 e) e).entities e).node with
  | none => rw [hnode] at h; cases h
  | some n =>
    rw [hnode] at h
    dsimp only at h
    cases h
    exact nframe_trans (nframe_unmountComponentsOf w1 e)
      (nframe_trans (frame_nRemoveSceneObsStep _ e)
        (nframe_trans (frame_nRemoveNodeObsStep _ e n)
          (nframe_trans (frame_nClearObsFieldsStep _ e)
            (nframe_trans (frame_nDisposeStep _ n)
              (nframe_trans (frame_nClearNodeEntityStep _ n)
                (nframe_trans (frame_nClearNodeStep _ e)
                  (nframe_trans (frame_nSpliceParentStep _ e)
                    (frame_nUnregisterStep _ e))))))))

theorem nDisposeStep_entities (w : NWorld) (n : Nat) :
    (nDisposeStep w n).entities = w.entities := by
  unfold nDisposeStep; split <;> rfl

theorem mem_nDisposeStep_self (w : NWorld) (n : Nat) : n ∈ (nDisposeStep w n).disposed := by
  unfold nDisposeStep
  by_cases h : n ∈ w.disposed
  · rwa [if_pos h]
  · rw [if_neg h]; exact List.mem_append_right _ (List.mem_singleton.mpr rfl)

theorem nClearObsFieldsStep_parent (w : NWorld) (e j : Nat) :
    ((nClearObsFieldsStep w e).entities j).parent = (w.entities j).parent := by
  by_cases hj : j = e <;> simp [nClearObsFieldsStep, updE, hj]

theorem nClearObsFieldsStep_children (w : NWorld) (e j : Nat) :
    ((nClearObsFieldsStep w e).entities j).children = (w.entities j).children := by
  by_cases hj : j = e <;> simp [nClearObsFieldsStep, updE, hj]

theorem nClearObsFieldsStep_node (w : NWorld) (e j : Nat) :
    ((nClearObsFieldsStep w e).entities j).node = (w.entities j).node := by
  by_cases hj : j = e <;> simp [nClearObsFieldsStep, updE, hj]

theorem nClearNodeStep_self (w : NWorld) (e : Nat) :
    (nClearNodeStep w e).entities e = { w.entities e with node := none, isMounted := false } := by
  simp [nClearNodeStep, updE]

theorem nClearNodeStep_parent (w : NWorld) (e j : Nat) :
    ((nClearNodeStep w e).entities j).parent = (w.entities j).parent := by
  by_cases hj : j = e <;> simp [nClearNodeStep, updE, hj]

theorem nClearNodeStep_children (w : NWorld) (e j : Nat) :
    ((nClearNodeStep w e).entities j).children = (w.entities j).children := by
  by_cases hj : j = e <;> simp [nClearNodeStep, updE, hj]

theorem nSpliceParentStep_disposed (w : NWorld) (e : Nat) :
    (nSpliceParentStep w e).disposed = w.disposed := by
  unfold nSpliceParentStep
  cases (w.entities e).parent <;> rfl

theorem nSpliceParentStep_node (w : NWorld) (e j : Nat) :
    ((nSpliceParentStep w e).entities j).node = (w.entities j).node := by
  unfold nSpliceParentStep
  cases (w.entities e).parent with
  | none => rfl
  | some p => by_cases hj : j = p <;> simp [updE, hj]

theorem nSpliceParentStep_isMounted (w : NWorld) (e j : Nat) :
    ((nSpliceParentStep w e).entities j).isMounted = (w.entities j).isMounted := by
  unfold nSpliceParentStep
  cases (w.entities e).parent with
  | none => rfl
  | some p => by_cases hj : j = p <;> simp [updE, hj]

theorem nUnmountTail_spec (w1 : NWorld) (e : Nat) (w' : NWorld)
    (h : nUnmountTail w1 e = .ok w') :
    (∃ n, (w1.entities e).node = some n ∧ n ∈ w'.disposed) ∧
    (w'.entities e).node = none ∧ (w'.entities e).isMounted = false := by
  unfold nUnmountTail at h
  dsimp only at h
  cases hnode : ((nRemoveSceneObsStep (unmountComponentsOf w1 e) e).entities e).node with
  | none => rw [hnode] at h; cases h
  | some n =>
    rw [hnode] at h
    dsimp only at h
    cases h
    refine ⟨⟨n, hnode, ?_⟩, ?_, ?_⟩
    · show n ∈ (nSpliceParentStep _ e).disposed
      rw [nSpliceParentStep_disposed]
      exact mem_nDisposeStep_self _ n
    · show ((nSpliceParentStep _ e).entities e).node = none
      rw [nSpliceParentStep_node, nClearNodeStep_self]
    · show ((nSpliceParentStep _ e).entities e).isMounted = false
      rw [nSpliceParentStep_isMounted, nClearNodeStep_self]

theorem nUnmountTail_children (w1 : NWorld) (e p : Nat) (w' : NWorld)
    (h : nUnmountTail w1 e = .ok w') (hp : (w1.entities e).parent = some p)
    (hc : ((w1.entities p).children).count e ≤ 1) :
    e ∉ (w'.entities p).children := by
  unfold nUnmountTail at h
  dsimp only at h
  cases hnode : ((nRemoveSceneObsStep (unmountComponentsOf w1 e) e).entities e).node with
  | none => rw [hnode] at h; cases h
  | some n =>
    rw [hnode] at h
    dsimp only at h
    cases h
    have hp8 : ((nClearNodeStep (nClearNodeEntityStep (nDisposeStep
        (nClearObsFieldsStep (nRemoveNodeObsStep (nRemoveSceneObsStep
          (unmountComponentsOf w1 e) e) e n) e) n) n) e).entities e).parent = some p := by
      rw [nClearNodeStep_parent]
      show ((nDisposeStep _ n).entities e).parent = some p
      rw [nDisposeStep_entities]
      rw [nClearObsFieldsStep_parent]
      exact hp
    have hc8 : (((nClearNodeStep (nClearNodeEntityStep (nDisposeStep
        (nClearObsFieldsStep (nRemoveNodeObsStep (nRemoveSceneObsStep
          (unmountComponentsOf w1 e) e) e n) e) n) n) e).entities p).children).count e ≤ 1 := by
      rw [nClearNodeStep_children]
      show (((nDisposeStep _ n).entities p).children).count e ≤ 1
      rw [nDisposeStep_entities]
      rw [nClearObsFieldsStep_children]
      exact hc
    show e ∉ ((nSpliceParentStep _ e).entities p).children
    unfold nSpliceParentStep
    rw [hp8]
    rw [nupdE_entities_self]
    exact not_mem_jsSpliceOut _ e hc8

theorem nUnmount_ok_destruct (fuel : Nat) (w : NWorld) (e : Nat) (w' : NWorld)
    (h : nUnmount fuel w e = .ok w') :
    ∃ fuel' w1, (w.entities e).isMounted = true ∧
      exceptFold (fun acc c => if (acc.entities c).isMounted then nUnmount fuel' acc c else .ok acc)
        w ((w.entities e).children) = .ok w1 ∧
      nUnmountTail w1 e = .ok w' := by
  cases fuel with
  | zero => simp [nUnmount] at h
  | succ fuel =>
    simp only [nUnmount] at h
    by_cases hm : (w.entities e).isMounted
    · rw [if_pos hm] at h
      cases hfold : exceptFold
          (fun acc c => if (acc.entities c).isMounted then nUnmount fuel acc c else .ok acc)
          w ((w.entities e).children) with
      | error er => rw [hfold] at h; cases h
      | ok w1 =>
        rw [hfold] at h
        dsimp only at h
        exact ⟨fuel, w1, hm, hfold, h⟩
    · rw [if_neg hm] at h
      cases h

theorem nUnmount_frame :
    ∀ fuel (w : NWorld) (e : Nat) (w' : NWorld), nUnmount fuel w e = .ok w' → Frame w w' := by
  intro fuel
  induction fuel with
  | zero => intro w e w' h; simp [nUnmount] at h
  | succ fuel ih =>
    intro w e w' h
    simp only [nUnmount] at h
    by_cases hm : (w.entities e).isMounted
    · rw [if_pos hm] at h
      cases hfold : exceptFold
          (fun acc c => if (acc.entities c).isMounted then nUnmount fuel acc c else .ok acc)
          w ((w.entities e).children) with
      | error er => rw [hfold] at h; cases h
      | ok w1 =>
        rw [hfold] at h
        dsimp only at h
        have hw1 : Frame w w1 := by
          refine exceptFold_preserve _ (Frame w) ?_ _ _ _ hfold (nframe_refl w)
          intro s a s' hs hP
          by_cases hsa : (s.entities a).isMounted
          · rw [if_pos hsa] at hs
            exact nframe_trans hP (ih s a s' hs)
          · rw [if_neg hsa] at hs
            cases hs
            exact hP
        exact nframe_trans hw1 (nUnmountTail_frame w1 e w' h)
    · rw [if_neg hm] at h
      cases h

theorem nFold_frame (fuel : Nat) (w : NWorld) (l : List Nat) (w1 : NWorld)
    (h : exceptFold
      (fun acc c => if (acc.entities c).isMounted then nUnmount fuel acc c else .ok acc)
      w l = .ok w1) : Frame w w1 := by
  refine exceptFold_preserve _ (Frame w) ?_ _ _ _ h (nframe_refl w)
  intro s a s' hs hP
  by_cases hsa : (s.entities a).isMounted
  · rw [if_pos hsa] at hs
    exact nframe_trans hP (nUnmount_frame fuel s a s' hs)
  · rw [if_neg hsa] at hs
    cases hs
    exact hP

theorem nmframe_refl (w : NWorld) : NMFrame w w := ⟨fun _ => rfl, fun _ => rfl⟩

theorem nmframe_trans {w w' w'' : NWorld} (h1 : NMFrame w w') (h2 : NMFrame w' w'') :
    NMFrame w w'' :=
  ⟨fun j => (h2.1 j).trans (h1.1 j), fun j => (h2.2 j).trans (h1.2 j)⟩

theorem nmframe_updE (w : NWorld) (e : Nat) (f : NEntity → NEntity)
    (hp : ∀ en, (f en).parent = en.parent)
    (hc : ∀ en, (f en).children = en.children) :
    NMFrame w (updE w e f) := by
  refine ⟨fun j => ?_, fun j => ?_⟩ <;> by_cases hj : j = e <;> simp [updE, hj, hp, hc]

theorem nmframe_nMountPre (w : NWorld) (e cx : Nat) : NMFrame w (nMountPre w e cx) := by
  unfold nMountPre
  dsimp only
  refine nmframe_trans
    (nmframe_updE w e (fun en => { en with ctx := some cx, node := some en.nid })
      (fun _ => rfl) (fun _ => rfl)) ?_
  split
  · exact nmframe_trans (nmframe_refl _)
      (nmframe_updE _ e (fun en => { en with isMounted := true }) (fun _ => rfl) (fun _ => rfl))
  · refine nmframe_trans (⟨fun _ => rfl, fun _ => rfl⟩ : NMFrame _ _) ?_
    exact nmframe_updE _ e (fun en => { en with isMounted := true }) (fun _ => rfl) (fun _ => rfl)

theorem nmframe_nMountPost (w : NWorld) (e nd : Nat) : NMFrame w (nMountPost w e nd) := by
  unfold nMountPost
  dsimp only
  exact nmframe_updE w e (fun en => { en with obs := some en.oid, dObs := some en.doid })
    (fun _ => rfl) (fun _ => rfl)

theorem nMountW_frame :
    ∀ fuel (w : NWorld) (e : Nat) (cx : Option Nat) (w' : NWorld),
      nMountW fuel w e cx = .ok w' → NMFrame w w' := by
  intro fuel
  induction fuel with
  | zero => intro w e cx w' h; simp [nMountW] at h
  | succ fuel ih =>
    intro w e cx w' h
    simp only [nMountW] at h
    by_cases hm : (w.entities e).isMounted
    · rw [if_pos hm] at h; cases h
    · rw [if_neg hm] at h
      cases cx with
      | none => cases h
      | some cxv =>
        dsimp only at h
        cases hfold : exceptFold (fun acc c => nMountW fuel acc c (some cxv))
            (nMountPre w e cxv) ((w.entities e).children) with
        | error er => rw [hfold] at h; cases h
        | ok w4 =>
          rw [hfold] at h
          dsimp only at h
          cases h
          have h2 : NMFrame (nMountPre w e cxv) w4 := by
            refine exceptFold_preserve _ (NMFrame (nMountPre w e cxv)) ?_ _ _ _ hfold
              (nmframe_refl _)
            intro s a s' hs hP
            exact nmframe_trans hP (ih s a _ s' hs)
          exact nmframe_trans (nmframe_nMountPre w e cxv)
            (nmframe_trans h2 (nmframe_nMountPost w4 e _))

theorem nAttachChild_children (w : NWorld) (p c j : Nat) :
    ((nAttachChild w p c).entities j).children =
      (if j = p then (w.entities p).children ++ [c] else (w.entities j).children) := by
  unfold nAttachChild
  by_cases hjc : j = c
  · subst hjc
    by_cases hj : j = p
    · subst hj
      simp [updE]
    · simp [updE, hj]
  · by_cases hj : j = p
    · subst hj
      simp [updE, hjc]
    · simp [updE, hj, hjc]

theorem nAttachChild_parent (w : NWorld) (p c : Nat) :
    ((nAttachChild w p c).entities c).parent = some p := by
  simp [nAttachChild, updE]

theorem nMountChild_children (fuel : Nat) (w : NWorld) (p c : Nat) (w' : NWorld)
    (h : nMountChild fuel w p c = .ok w') :
    (w'.entities p).children = (w.entities p).children ++ [c] ∧
    (w'.entities c).parent = some p := by
  unfold nMountChild at h
  by_cases hm : (w.entities c).isMounted
  · rw [if_pos hm] at h; cases h
  · rw [if_neg hm] at h
    dsimp only at h
    by_cases hpm : ((nAttachChild w p c).entities p).isMounted
    · rw [if_pos hpm] at h
      have hfr := nMountW_frame fuel _ c _ w' h
      constructor
      · rw [hfr.2 p, nAttachChild_children w p c p, if_pos rfl]
      · rw [hfr.1 c, nAttachChild_parent w p c]
    · rw [if_neg hpm] at h
      cases h
      constructor
      · rw [nAttachChild_children w p c p, if_pos rfl]
      · exact nAttachChild_parent w p c

end Nucleus

/-- C1 counterexample: two concrete violations of the claimed tree
invariant in the bframe entity.  First, after the mounted child 1 of
parent 0 runs `unmount()` successfully, `1` is still an element of its
former parent's `children` list — refuting "after `e.unmount()`, `e` is no
longer an element of its former parent's children list".  Second,
`mountChild` does not check for an existing parent: mounting the fresh
entity 2 under the unmounted parent 0 and then under parent 1 leaves 2 in
the children lists of both 0 and 1 while its parent pointer names only 1 —
refuting "an entity appears in the children list of its parent only" and
the claim that every operation preserves the tree invariant. -/
theorem bframe_unmount_leaves_child_in_parent_list_cex :
    bChildrenAfterUnmount 1 bDemoWorld 1 0 = some [1] ∧
    (((exceptGetD (Bframe.bMountChild 1
        (exceptGetD (Bframe.bMountChild 1 bFreshWorld 0 2) bFreshWorld) 1 2)
        (exceptGetD (Bframe.bMountChild 1 bFreshWorld 0 2) bFreshWorld)).entities 0).children
        = [2] ∧
      ((exceptGetD (Bframe.bMountChild 1
        (exceptGetD (Bframe.bMountChild 1 bFreshWorld 0 2) bFreshWorld) 1 2)
        (exceptGetD (Bframe.bMountChild 1 bFreshWorld 0 2) bFreshWorld)).entities 1).children
        = [2] ∧
      ((exceptGetD (Bframe.bMountChild 1
        (exceptGetD (Bframe.bMountChild 1 bFreshWorld 0 2) bFreshWorld) 1 2)
        (exceptGetD (Bframe.bMountChild 1 bFreshWorld 0 2) bFreshWorld)).entities 2).parent
        = some 1) := by
  decide

/-- C1 (amended): each entity stores at most one parent reference, and in
both implementations a successful `mountChild` appends the child to the end
of the parent's `children` list (children lists record insertion order)
and makes the mounting parent the child's one parent; but the operations do
not preserve the rest of the tree invariant: `mountChild` never checks for
an existing parent (see the counterexample, where an entity ends up in two
children lists while pointing at one parent), the bframe `unmount` leaves
every `children` list in the world exactly as it was, so the unmounted
entity stays in its former parent's children list, and only the nucleus
`unmount` splices the entity out of its parent's `children` list, so
afterwards the entity (occurring at most once beforehand) is no longer an
element of that list. -/
theorem unmount_children_list_update
    (fb : Nat) (wb : Bframe.BWorld) (eb jb : Nat) (wb' : Bframe.BWorld)
    (hb : Bframe.bUnmount fb wb eb = .ok wb')
    (fn : Nat) (wn : Nucleus.NWorld) (en pn : Nat) (wn' : Nucleus.NWorld)
    (hp : (wn.entities en).parent = some pn)
    (hc : ((wn.entities pn).children).count en ≤ 1)
    (hn : Nucleus.nUnmount fn wn en = .ok wn')
    (fm : Nat) (wm : Bframe.BWorld) (pm cm : Nat) (wm' : Bframe.BWorld)
    (hmc : Bframe.bMountChild fm wm pm cm = .ok wm')
    (fq : Nat) (wq : Nucleus.NWorld) (pq cq : Nat) (wq' : Nucleus.NWorld)
    (hqc : Nucleus.nMountChild fq wq pq cq = .ok wq') :
    ((wb'.entities jb).children = (wb.entities jb).children ∧
      en ∉ (wn'.entities pn).children) ∧
    ((wm'.entities pm).children = (wm.entities pm).children ++ [cm] ∧
      (wm'.entities cm).parent = some pm) ∧
    ((wq'.entities pq).children = (wq.entities pq).children ++ [cq] ∧
      (wq'.entities cq).parent = some pq) := by
  refine ⟨⟨?_, ?_⟩, ?_, ?_⟩
  · exact (Bframe.bUnmount_frame fb wb eb wb' hb).2.1 jb
  · obtain ⟨fn', w1, _, hfold, htail⟩ := Nucleus.nUnmount_ok_destruct fn wn en wn' hn
    have hfr := Nucleus.nFold_frame fn' wn _ w1 hfold
    have hp1 : (w1.entities en).parent = some pn := by rw [hfr.1 en, hp]
    have hc1 : ((w1.entities pn).children).count en ≤ 1 :=
      le_trans (hfr.2.1 pn en) hc
    exact Nucleus.nUnmountTail_children w1 en pn wn' htail hp1 hc1
  · exact Bframe.bMountChild_children fm wm pm cm wm' hmc
  · exact Nucleus.nMountChild_children fq wq pq cq wq' hqc

/-- C1 witness: concrete instantiation of `unmount_children_list_update` on
the demo worlds — in the mountChild worlds the fresh entity 2 is mounted
as a second child of the mounted parent 0, exercising the recursive
`_mount`. -/
theorem unmount_children_list_update_witness :
    (((exceptGetD (Bframe.bUnmount 1 bDemoWorld 1) bDemoWorld).entities 0).children =
        ((bDemoWorld.entities 0)).children ∧
      1 ∉ ((exceptGetD (Nucleus.nUnmount 1 nDemoWorld 1) nDemoWorld).entities 0).children) ∧
    (((exceptGetD (Bframe.bMountChild 2 bMCWorld 0 2) bMCWorld).entities 0).children =
        ((bMCWorld.entities 0)).children ++ [2] ∧
      ((exceptGetD (Bframe.bMountChild 2 bMCWorld 0 2) bMCWorld).entities 2).parent = some 0) ∧
    (((exceptGetD (Nucleus.nMountChild 2 nMCWorld 0 2) nMCWorld).entities 0).children =
        ((nMCWorld.entities 0)).children ++ [2] ∧
      ((exceptGetD (Nucleus.nMountChild 2 nMCWorld 0 2) nMCWorld).entities 2).parent = some 0) :=
  unmount_children_list_update 1 bDemoWorld 1 0 _ rfl
    1 nDemoWorld 1 0 _ (by decide) (by decide) rfl
    2 bMCWorld 0 2 _ rfl
    2 nMCWorld 0 2 _ rfl

/-- C4: whenever `unmount()` returns normally on an entity holding node `n`
(in either the bframe or the nucleus implementation), the node `n` has been
disposed, the entity's node reference is cleared, and `isMounted` is false.
-/
theorem unmount_disposes_and_clears_node
    (fb : Nat) (wb : Bframe.BWorld) (eb nb : Nat) (wb' : Bframe.BWorld)
    (hnb : (wb.entities eb).node = some nb) (hb : Bframe.bUnmount fb wb eb = .ok wb')
    (fn : Nat) (wn : Nucleus.NWorld) (en nn : Nat) (wn' : Nucleus.NWorld)
    (hnn : (wn.entities en).node = some nn) (hn : Nucleus.nUnmount fn wn en = .ok wn') :
    (nb ∈ wb'.disposed ∧ (wb'.entities eb).node = none ∧ (wb'.entities eb).isMounted = false) ∧
    (nn ∈ wn'.disposed ∧ (wn'.entities en).node = none ∧ (wn'.entities en).isMounted = false) := by
  constructor
  · obtain ⟨fb', w1, hfold, htail⟩ := Bframe.bUnmount_ok_destruct fb wb eb wb' hb
    obtain ⟨⟨n, hn1, hdisp⟩, hclear, hunm, -⟩ := Bframe.bUnmountTail_spec w1 eb wb' htail
    have hfr := Bframe.bFold_frame fb' wb _ w1 hfold
    have : (w1.entities eb).node = (wb.entities eb).node := by
      rcases hfr.2.2.1 eb with h | h
      · exact h
      · rw [h] at hn1; cases hn1
    rw [this, hnb] at hn1
    cases hn1
    exact ⟨hdisp, hclear, hunm⟩
  · obtain ⟨fn', w1, -, hfold, htail⟩ := Nucleus.nUnmount_ok_destruct fn wn en wn' hn
    obtain ⟨⟨n, hn1, hdisp⟩, hclear, hunm⟩ := Nucleus.nUnmountTail_spec w1 en wn' htail
    have hfr := Nucleus.nFold_frame fn' wn _ w1 hfold
    have : (w1.entities en).node = (wn.entities en).node := by
      rcases hfr.2.2.1 en with h | h
      · exact h
      · rw [h] at hn1; cases hn1
    rw [this, hnn] at hn1
    cases hn1
    exact ⟨hdisp, hclear, hunm⟩

/-- C4 witness: concrete instantiation of `unmount_disposes_and_clears_node`
on the two demo worlds (child entity 1 holds node 10 in both). -/
theorem unmount_disposes_and_clears_node_witness :
    (10 ∈ (exceptGetD (Bframe.bUnmount 1 bDemoWorld 1) bDemoWorld).disposed ∧
      ((exceptGetD (Bframe.bUnmount 1 bDemoWorld 1) bDemoWorld).entities 1).node = none ∧
      ((exceptGetD (Bframe.bUnmount 1 bDemoWorld 1) bDemoWorld).entities 1).isMounted = false) ∧
    (10 ∈ (exceptGetD (Nucleus.nUnmount 1 nDemoWorld 1) nDemoWorld).disposed ∧
      ((exceptGetD (Nucleus.nUnmount 1 nDemoWorld 1) nDemoWorld).entities 1).node = none ∧
      ((exceptGetD (Nucleus.nUnmount 1 nDemoWorld 1) nDemoWorld).entities 1).isMounted = false) :=
  unmount_disposes_and_clears_node 1 bDemoWorld 1 10 _ (by decide) rfl
    1 nDemoWorld 1 10 _ (by decide) rfl

/-- C9: the bframe `unmount` ends with the unguarded call
`this.parent.onChildrenUpdated()`, so on an entity with no parent `unmount`
always throws (the `TypeError` branch is reachable and `unmount` can never
return normally): having a parent is a precondition of `unmount`. -/
theorem bframe_unmount_requires_parent (fuel : Nat) (w : Bframe.BWorld) (e : Nat)
    (h : (w.entities e).parent = none) :
    ∃ er, Bframe.bUnmount fuel w e = .error er := by
  cases hres : Bframe.bUnmount fuel w e with
  | error er => exact ⟨er, rfl⟩
  | ok w' =>
    exfalso
    obtain ⟨f', w1, hfold, htail⟩ := Bframe.bUnmount_ok_destruct fuel w e w' hres
    obtain ⟨-, -, -, p, hp⟩ := Bframe.bUnmountTail_spec w1 e w' htail
    have hfr := Bframe.bFold_frame f' w _ w1 hfold
    rw [hfr.1 e, h] at hp
    cases hp

/-- C9 witness: on the concrete root world, a mounted parentless entity's
`unmount` throws. -/
theorem bframe_unmount_requires_parent_witness :
    ∃ er, Bframe.bUnmount 1 bRootWorld 0 = .error er :=
  bframe_unmount_requires_parent 1 bRootWorld 0 rfl

namespace Bframe

theorem wiredInv_mount1 (s : EState) (h : wiredInv s = true) : wiredInv (mount1 s) = true := by
  unfold mount1
  by_cases hm : s.isMounted
  · rwa [if_pos hm]
  · rw [if_neg hm]
    unfold wiredInv at h
    cases ho : s.obs with
    | some o =>
      rw [ho] at h
      simp only [Bool.and_eq_true] at h
      exact absurd h.1 hm
    | none =>
      rw [ho] at h
      simp only [Bool.and_eq_true, beq_iff_eq] at h
      simp [wiredInv, h.2]

theorem wiredInv_unmount1 (s s' : EState) (h : unmount1 s = .ok s')
    (hs : wiredInv s = true) : wiredInv s' = true := by
  have hrem : removeObserver s.sceneObs s.obs = [] := by
    unfold wiredInv at hs
    cases ho : s.obs with
    | some o =>
      rw [ho] at hs
      simp only [Bool.and_eq_true, beq_iff_eq] at hs
      rw [hs.2]
      simp [removeObserver]
    | none =>
      rw [ho] at hs
      simp only [Bool.and_eq_true, beq_iff_eq] at hs
      rw [hs.2]
      rfl
  unfold unmount1 at h
  dsimp only at h
  cases hn : ({ s with sceneObs := removeObserver s.sceneObs s.obs, obs := none } : EState).node with
  | none => rw [hn] at h; cases h
  | some n =>
    rw [hn] at h
    dsimp only at h
    split at h
    · cases h
      simp [wiredInv, hrem]
    · cases h

theorem wiredInv_stepE (s : EState) (op : EOp) (s' : EState) (h : stepE s op = .ok s')
    (hs : wiredInv s = true) : wiredInv s' = true := by
  cases op with
  | mount =>
    cases h
    exact wiredInv_mount1 s hs
  | unmount => exact wiredInv_unmount1 s s' h hs
  | remount =>
    unfold stepE remount1 at h
    by_cases hm : s.isMounted
    · rw [if_pos hm] at h
      cases hu : unmount1 s with
      | error er => rw [hu] at h; cases h
      | ok s1 =>
        rw [hu] at h
        cases h
        exact wiredInv_mount1 s1 (wiredInv_unmount1 s s1 hu hs)
    · rw [if_neg hm] at h
      cases h
      exact hs

end Bframe

/-- C5: an entity's before-render observer is registered on the scene's
`onBeforeRenderObservable` exactly when the entity is mounted — `_mount`
adds and stores a fresh observer, and `unmount` removes it from the
observable and clears the stored reference, so that when the entity is
mounted the observable holds precisely the stored observer and when it is
unmounted no observer of the entity remains registered — and this wiring
invariant is preserved by every sequence of mount/unmount/remount
operations that returns normally. -/
theorem observer_wired_iff_mounted (ops : List Bframe.EOp) (s0 s' : Bframe.EState)
    (h0 : Bframe.wiredInv s0 = true) (h : Bframe.runE s0 ops = .ok s') :
    Bframe.wiredInv s' = true :=
  exceptFold_preserve Bframe.stepE (fun s => Bframe.wiredInv s = true)
    Bframe.wiredInv_stepE ops s0 s' h h0

/-- C5 witness: running mount, remount, unmount, mount from a fresh
unmounted entity preserves the wiring invariant. -/
theorem observer_wired_iff_mounted_witness :
    Bframe.wiredInv {} = true ∧
    Bframe.runE {} [.mount, .remount, .unmount, .mount] =
      .ok (exceptGetD (Bframe.runE {} [.mount, .remount, .unmount, .mount]) {}) ∧
    Bframe.wiredInv (exceptGetD (Bframe.runE {} [.mount, .remount, .unmount, .mount]) {}) = true :=
  ⟨by decide, rfl,
    observer_wired_iff_mounted [.mount, .remount, .unmount, .mount] {} _ (by decide) rfl⟩

namespace Bframe

mutual

theorem mountT_ok (ctx : Ctx6) :
    ∀ t, allUnmountedT t = true → mountedWithT ctx (mountT ctx t) = true
  | .mk mounted c nid nd comps children, h => by
    unfold allUnmountedT at h
    simp only [Bool.and_eq_true, Bool.not_eq_true'] at h
    unfold mountT
    rw [h.1]
    simp only [if_neg (by simp : ¬ (false = true))]
    unfold mountedWithT
    simp only [Bool.and_eq_true, beq_iff_eq, List.all_eq_true]
    refine ⟨by simp, mountF_ok ctx children h.2⟩

theorem mountF_ok (ctx : Ctx6) :
    ∀ f, allUnmountedF f = true → mountedWithF ctx (mountF ctx f) = true
  | .nil, _ => rfl
  | .cons t ts, h => by
    unfold allUnmountedF at h
    simp only [Bool.and_eq_true] at h
    unfold mountF mountedWithF
    simp only [Bool.and_eq_true]
    exact ⟨mountT_ok ctx t h.1, mountF_ok ctx ts h.2⟩

end

end Bframe

/-- C6: mounting a subtree of unmounted entities with context `ctx` (this
is what `mountChild` on a mounted parent does via `child._mount(this.context)`,
and what `_mount` does recursively for the children) leaves every entity of
the subtree mounted with exactly the same context bundle `ctx` as its
parent, and every component mounted on an entity of the subtree stores a
context holding that entity's engine, scene and node. -/
theorem mount_propagates_context (ctx : Bframe.Ctx6) (t : Bframe.BTree)
    (h : Bframe.allUnmountedT t = true) :
    Bframe.mountedWithT ctx (Bframe.mountT ctx t) = true :=
  Bframe.mountT_ok ctx t h

/-- C6 witness: mounting the concrete demo tree with context (8, 9, 3). -/
theorem mount_propagates_context_witness :
    Bframe.mountedWithT ⟨8, 9, 3⟩ (Bframe.mountT ⟨8, 9, 3⟩ Bframe.demoTree) = true :=
  mount_propagates_context ⟨8, 9, 3⟩ Bframe.demoTree (by decide)

/-- C7: on a live scene with no stored context, `getContextFor` creates one
context whose registrar is the single newly constructed `SystemRegistrar`,
stores it on the scene, and every subsequent `getContextFor` on the same
scene returns exactly that context with the state unchanged — no second
registrar is ever created for the scene. -/
theorem getContextFor_idempotent_per_scene (s : Helper.HState) (sid : Nat)
    (h0 : s.stored sid = none) (hd : sid ∉ s.disposedScenes) :
    ∃ c s1, Helper.getContextFor (.scene sid) s = .ok (c, s1) ∧
      c.systemRegistrar = s.nextReg ∧
      s1.nextReg = s.nextReg + 1 ∧
      s1.stored sid = some c ∧
      Helper.getContextFor (.scene sid) s1 = .ok (c, s1) := by
  refine ⟨⟨s.engineOf sid, s.nextReg, sid⟩,
    { s with
      stored := fun j => if j = sid then some ⟨s.engineOf sid, s.nextReg, sid⟩ else s.stored j,
      nextReg := s.nextReg + 1 }, ?_, rfl, rfl, ?_, ?_⟩
  · unfold Helper.getContextFor
    dsimp only
    rw [h0]
    unfold Helper.initContextFor
    rw [if_neg hd]
  · simp
  · unfold Helper.getContextFor
    dsimp only
    simp

/-- C7 witness: concrete instantiation on a fresh helper state. -/
theorem getContextFor_idempotent_per_scene_witness :
    ∃ c s1,
      Helper.getContextFor (.scene 5)
        ⟨fun _ => none, 0, fun _ => 42, []⟩ = .ok (c, s1) ∧
      c.systemRegistrar = (0 : Nat) ∧
      s1.nextReg = 0 + 1 ∧
      s1.stored 5 = some c ∧
      Helper.getContextFor (.scene 5) s1 = .ok (c, s1) :=
  getContextFor_idempotent_per_scene ⟨fun _ => none, 0, fun _ => 42, []⟩ 5 rfl (by decide)

theorem foldl_append_eq_map {α β : Type} (f : α → β) :
    ∀ (l : List α) (init : List β),
      l.foldl (fun tr c => tr ++ [f c]) init = init ++ l.map f := by
  intro l
  induction l with
  | nil => intro init; simp
  | cons a l ih => intro init; simp [ih]

theorem bframeRenderTrace_eq (comps : List RComp) :
    bframeRenderTrace comps =
      comps.map (fun c => REvent.compTick c.id) ++ [REvent.entityTick] := by
  unfold bframeRenderTrace
  rw [foldl_append_eq_map]
  simp

theorem nucleusRenderTrace_eq (comps : List RComp) :
    nucleusRenderTrace comps =
      (comps.filter (fun c => c.isEnabled)).map (fun c => REvent.compUpdate c.id)
        ++ [REvent.entityUpdate] := by
  unfold nucleusRenderTrace
  rw [foldl_append_eq_map]
  simp

/-- C8 counterexample: a nucleus entity with an attached but disabled
component (id 7) never invokes that component's `onUpdate` hook during a
before-render event — refuting the claim that every attached component's
hook is invoked. -/
theorem nucleus_disabled_component_not_ticked_cex :
    (⟨7, false⟩ : RComp) ∈ [(⟨5, true⟩ : RComp), ⟨7, false⟩] ∧
    REvent.compUpdate 7 ∉ nucleusRenderTrace [⟨5, true⟩, ⟨7, false⟩] := by
  decide

/-- C8 (amended): during each before-render event, the bframe entity
invokes every attached component's `tick` in attachment order (the `i`-th
event of the trace is the `i`-th component's tick) and then its own `tick`
as the final event; the nucleus entity invokes `onUpdate` of every
*enabled* attached component, in attachment order, and then the entity's
own `onUpdate` as the final event, while components with `isEnabled` false
are skipped entirely. -/
theorem render_hook_order (comps : List RComp) (i : Nat) (hi : i < comps.length)
    (j : Nat) (hj : j < (comps.filter (fun c => c.isEnabled)).length)
    (c : RComp) (hc : c ∈ comps) (hdis : c.isEnabled = false)
    (hnd : (comps.map (fun c => c.id)).Nodup) :
    (bframeRenderTrace comps)[i]? = some (REvent.compTick (comps[i].id)) ∧
    (bframeRenderTrace comps)[comps.length]? = some REvent.entityTick ∧
    (nucleusRenderTrace comps)[j]? =
      some (REvent.compUpdate ((comps.filter (fun c => c.isEnabled))[j].id)) ∧
    (nucleusRenderTrace comps)[(comps.filter (fun c => c.isEnabled)).length]? =
      some REvent.entityUpdate ∧
    REvent.compUpdate c.id ∉ nucleusRenderTrace comps := by
  refine ⟨?_, ?_, ?_, ?_, ?_⟩
  · rw [bframeRenderTrace_eq]
    rw [List.getElem?_append_left (by simpa using hi)]
    rw [List.getElem?_map]
    rw [List.getElem?_eq_getElem hi]
    rfl
  · rw [bframeRenderTrace_eq]
    simp
  · rw [nucleusRenderTrace_eq]
    rw [List.getElem?_append_left (by simpa using hj)]
    rw [List.getElem?_map]
    rw [List.getElem?_eq_getElem hj]
    rfl
  · rw [nucleusRenderTrace_eq]
    simp
  · rw [nucleusRenderTrace_eq]
    intro hmem
    rcases List.mem_append.mp hmem with hmem | hmem
    · rcases List.mem_map.mp hmem with ⟨d, hd, hde⟩
      have hdid : d.id = c.id := REvent.compUpdate.inj hde
      have hdmem : d ∈ comps := (List.mem_filter.mp hd).1
      have hden : d.isEnabled = true := by
        simpa using (List.mem_filter.mp hd).2
      have : d = c := List.inj_on_of_nodup_map hnd hdmem hc hdid
      rw [this] at hden
      rw [hdis] at hden
      cases hden
    · simp at hmem

/-- C8 witness: concrete instantiation of `render_hook_order` with three
components, the middle one disabled. -/
theorem render_hook_order_witness :
    (bframeRenderTrace [⟨5, true⟩, ⟨7, false⟩, ⟨6, true⟩])[1]? =
      some (REvent.compTick (([(⟨5, true⟩ : RComp), ⟨7, false⟩, ⟨6, true⟩])[1].id)) ∧
    (bframeRenderTrace [⟨5, true⟩, ⟨7, false⟩, ⟨6, true⟩])[3]? = some REvent.entityTick ∧
    (nucleusRenderTrace [⟨5, true⟩, ⟨7, false⟩, ⟨6, true⟩])[1]? =
      some (REvent.compUpdate
        ((([(⟨5, true⟩ : RComp), ⟨7, false⟩, ⟨6, true⟩]).filter (fun c => c.isEnabled))[1].id)) ∧
    (nucleusRenderTrace [⟨5, true⟩, ⟨7, false⟩, ⟨6, true⟩])[2]? = some REvent.entityUpdate ∧
    REvent.compUpdate (RComp.mk 7 false).id ∉
      nucleusRenderTrace [⟨5, true⟩, ⟨7, false⟩, ⟨6, true⟩] :=
  render_hook_order [⟨5, true⟩, ⟨7, false⟩, ⟨6, true⟩] 1 (by decide) 1 (by decide)
    ⟨7, false⟩ (by decide) rfl (by decide)

/-- C3 counterexample: the bframe `addComponents` happily attaches a second
instance of the same concrete kind (kind 3): the collection changes rather
than being left unchanged or rejecting, and two components of the same kind
are simultaneously attached. -/
theorem bframe_addComponents_same_kind_twice_cex :
    addComponentsB [⟨0, 3⟩] [⟨1, 3⟩] = [⟨0, 3⟩, ⟨1, 3⟩] ∧
    ¬ (((addComponentsB [⟨0, 3⟩] [⟨1, 3⟩]).map (fun c => c.kind)).Nodup) := by
  decide

/-- C3 (amended): the nucleus component collection has set semantics per
concrete kind — mounting components preserves kind-uniqueness, and mounting
a component whose kind is already present throws — while the bframe
`addComponents` deduplicates only by instance identity: re-adding the very
same instance leaves the collection unchanged, but a second instance of an
already-present kind is appended. -/
theorem component_kind_set_semantics
    (cur newC res : List CComp) (hnd : (cur.map (fun c => c.kind)).Nodup)
    (hok : mountComponentsN cur newC = .ok res)
    (cur2 : List CComp) (c : CComp) (rest : List CComp)
    (hdup : cur2.any (fun d => d.kind = c.kind) = true)
    (cur3 : List CComp) (c2 : CComp) (hid : cur3.any (fun d => d.id = c2.id) = true) :
    (res.map (fun c => c.kind)).Nodup ∧
    mountComponentsN cur2 (c :: rest) = .error .compAlreadyMounted ∧
    addComponentsB cur3 [c2] = cur3 := by
  refine ⟨?_, ?_, ?_⟩
  · refine exceptFold_preserve _ (fun cs => (cs.map (fun c => c.kind)).Nodup) ?_
      newC cur res hok hnd
    intro cs a cs' hstep hP
    by_cases hany : cs.any (fun d => d.kind = a.kind) = true
    · rw [if_pos hany] at hstep; cases hstep
    · rw [if_neg hany] at hstep
      cases hstep
      have hnot : a.kind ∉ cs.map (fun c => c.kind) := by
        intro hmem
        rcases List.mem_map.mp hmem with ⟨d, hd, hde⟩
        exact hany (List.any_eq_true.mpr ⟨d, hd, by simp [hde]⟩)
      simp [List.nodup_append, hP, hnot]
  · simp [mountComponentsN, exceptFold, hdup]
  · unfold addComponentsB
    simp only [List.foldl_cons, List.foldl_nil]
    rw [if_pos hid]

/-- C3 witness: concrete instantiation of `component_kind_set_semantics`. -/
theorem component_kind_set_semantics_witness :
    (((exceptGetD (mountComponentsN [⟨0, 3⟩] [⟨1, 4⟩]) []).map (fun c => c.kind)).Nodup) ∧
    mountComponentsN [⟨0, 3⟩] [⟨1, 3⟩] = .error .compAlreadyMounted ∧
    addComponentsB [⟨0, 3⟩] [⟨0, 3⟩] = [⟨0, 3⟩] :=
  component_kind_set_semantics [⟨0, 3⟩] [⟨1, 4⟩] _ (by decide) rfl
    [⟨0, 3⟩] ⟨1, 3⟩ [] (by decide) [⟨0, 3⟩] ⟨0, 3⟩ (by decide)

theorem lookup_map_replace :
    ∀ (l : List (Nat × Nat)) (k v : Nat), l.any (fun p => p.1 = k) = true →
      List.lookup k (l.map (fun p => if p.1 = k then (k, v) else p)) = some v := by
  intro l
  induction l with
  | nil => intro k v h; cases h
  | cons p l ih =>
    intro k v h
    obtain ⟨p1, p2⟩ := p
    simp only [List.map_cons]
    by_cases hp : p1 = k
    · rw [if_pos (by simpa using hp)]
      simp [List.lookup]
    · rw [if_neg (by simpa using hp)]
      have hk : (k == p1) = false := by
        simp [Ne.symm hp]
      simp only [List.lookup, hk]
      apply ih
      simp only [List.any_cons] at h
      rcases Bool.or_eq_true_iff.mp h with h' | h'
      · exfalso; exact hp (by simpa using h')
      · exact h'

theorem lookup_append_single :
    ∀ (l : List (Nat × Nat)) (k v : Nat), l.any (fun p => p.1 = k) = false →
      List.lookup k (l ++ [(k, v)]) = some v := by
  intro l
  induction l with
  | nil => intro k v _; simp [List.lookup]
  | cons p l ih =>
    intro k v h
    obtain ⟨p1, p2⟩ := p
    simp only [List.any_cons, Bool.or_eq_false_iff] at h
    have hk : (k == p1) = false := by
      have : ¬ (p1 = k) := by simpa using h.1
      simp [Ne.symm this]
    simp only [List.cons_append, List.lookup, hk]
    exact ih k v h.2

theorem lookup_append_single_ne :
    ∀ (l : List (Nat × Nat)) (k v k' : Nat), k' ≠ k →
      List.lookup k' (l ++ [(k, v)]) = List.lookup k' l := by
  intro l
  induction l with
  | nil =>
    intro k v k' h
    have hk : (k' == k) = false := by simp [h]
    simp [List.lookup, hk]
  | cons p l ih =>
    intro k v k' h
    obtain ⟨p1, p2⟩ := p
    simp only [List.cons_append, List.lookup]
    cases hk : (k' == p1) with
    | true => rfl
    | false => exact ih k v k' h

theorem lookup_map_replace_ne :
    ∀ (l : List (Nat × Nat)) (k v k' : Nat), k' ≠ k →
      List.lookup k' (l.map (fun p => if p.1 = k then (k, v) else p)) = List.lookup k' l := by
  intro l
  induction l with
  | nil => intro k v k' _; rfl
  | cons p l ih =>
    intro k v k' h
    obtain ⟨p1, p2⟩ := p
    simp only [List.map_cons]
    by_cases hp : p1 = k
    · rw [if_pos (by simpa using hp)]
      have h1 : (k' == k) = false := by simp [h]
      have h2 : (k' == p1) = false := by simp [hp, h]
      simp only [List.lookup, h1, h2]
      exact ih k v k' h
    · rw [if_neg (by simpa using hp)]
      simp only [List.lookup]
      cases hk : (k' == p1) with
      | true => rfl
      | false => exact ih k v k' h

theorem lookupF_setField_self (o : JsObj) (k v : Nat) :
    lookupF (setField o k v) k = some v := by
  unfold setField lookupF
  by_cases h : o.fields.any (fun p => p.1 = k) = true
  · rw [if_pos h]
    exact lookup_map_replace o.fields k v h
  · rw [if_neg h]
    exact lookup_append_single o.fields k v (Bool.eq_false_iff.mpr h)

theorem lookupF_setField_ne (o : JsObj) (k v k' : Nat) (h : k' ≠ k) :
    lookupF (setField o k v) k' = lookupF o k' := by
  unfold setField lookupF
  by_cases hh : o.fields.any (fun p => p.1 = k) = true
  · rw [if_pos hh]
    exact lookup_map_replace_ne o.fields k v k' h
  · rw [if_neg hh]
    exact lookup_append_single_ne o.fields k v k' h

theorem lookup_none_of_not_mem_keys :
    ∀ (l : List (Nat × Nat)) (k : Nat), k ∉ l.map Prod.fst → List.lookup k l = none := by
  intro l
  induction l with
  | nil => intro k _; rfl
  | cons p l ih =>
    intro k h
    obtain ⟨p1, p2⟩ := p
    simp only [List.map_cons, List.mem_cons] at h
    push_neg at h
    have hk : (k == p1) = false := by simp [h.1]
    simp only [List.lookup, hk]
    exact ih k h.2

theorem lookup_foldl_setField :
    ∀ (fs : List (Nat × Nat)) (t : JsObj), (fs.map Prod.fst).Nodup →
      ∀ k, lookupF (fs.foldl (fun acc p => setField acc p.1 p.2) t) k =
        (List.lookup k fs).or (lookupF t k) := by
  intro fs
  induction fs with
  | nil => intro t _ k; simp [List.lookup]
  | cons p fs ih =>
    intro t hnd k
    obtain ⟨k0, v0⟩ := p
    simp only [List.map_cons, List.nodup_cons] at hnd
    simp only [List.foldl_cons]
    rw [ih (setField t k0 v0) hnd.2 k]
    by_cases hk : k = k0
    · subst hk
      rw [lookup_none_of_not_mem_keys fs k hnd.1]
      rw [lookupF_setField_self]
      simp [List.lookup]
    · have hkb : (k == k0) = false := by simp [hk]
      rw [lookupF_setField_ne t k0 v0 k hk]
      simp only [List.lookup, hkb]

theorem lookupF_objAssign (t s : JsObj) (hnd : (s.fields.map Prod.fst).Nodup) (k : Nat) :
    lookupF (objAssign t s) k = (lookupF s k).or (lookupF t k) :=
  lookup_foldl_setField s.fields t hnd k

theorem nucleus_updateProps_read (h : Heap) (pr ar : Nat)
    (hpr : pr < h.size) (har : ar < h.size) :
    readObj (Nucleus.updatePropsOp h pr ar).1 (Nucleus.updatePropsOp h pr ar).2 =
      objAssign (readObj h ar) (readObj h pr) := by
  have h1 : ar ≠ h.size := Nat.ne_of_lt har
  have h2 : pr ≠ h.size := Nat.ne_of_lt hpr
  have h3 : pr ≠ h.size + 1 := by omega
  simp [Nucleus.updatePropsOp, allocObj, writeObj, readObj, h1, h2, h3]

theorem bframe_updateProps_read (h : Heap) (pr ar : Nat)
    (hpr : pr < h.size) (har : ar < h.size) :
    readObj (Bframe.updatePropsOp h pr ar).1 (Bframe.updatePropsOp h pr ar).2 =
      objAssign (readObj h pr) (readObj h ar) := by
  have h1 : ar ≠ h.size := Nat.ne_of_lt har
  have h2 : pr ≠ h.size := Nat.ne_of_lt hpr
  simp [Bframe.updatePropsOp, allocObj, writeObj, readObj, h1, h2]

/-- C2 counterexample: the bframe constructor stores the caller's props
object itself — the stored reference equals the argument reference, and
mutating the caller's object afterwards (setting key 0 to 5) changes
`entity.props`, whose key 0 originally read 1. -/
theorem bframe_construct_props_aliases_argument_cex :
    (Bframe.constructProps demoHeap (some 0)).2 = 0 ∧
    lookupF (readObj demoHeap 0) 0 = some 1 ∧
    lookupF (readObj (heapSetField (Bframe.constructProps demoHeap (some 0)).1 0 0 5)
      (Bframe.constructProps demoHeap (some 0)).2) 0 = some 5 := by
  decide

/-- C2 (amended): the nucleus entity clones props on construction and on
update — the stored props reference is never the argument object, and
mutating the caller's argument afterwards does not change the entity's
props — whereas the bframe constructor stores the caller's object itself
without cloning, and the bframe `updateProps` keeps the entity's existing
props object (the stored reference is unchanged and distinct from the
argument) and copies the argument's fields into it in place, as
`Object.assign(this.props, props)`. -/
theorem nucleus_props_cloned (hp : Heap) (r k v : Nat) (hr : r < hp.size)
    (h2 : Heap) (pr ar k2 v2 : Nat) (hpr : pr < h2.size) (har : ar < h2.size)
    (hne : pr ≠ ar) :
    (Nucleus.constructProps hp (some r)).2 ≠ r ∧
    readObj (Nucleus.constructProps hp (some r)).1 (Nucleus.constructProps hp (some r)).2 =
      readObj hp r ∧
    readObj (heapSetField (Nucleus.constructProps hp (some r)).1 r k v)
        (Nucleus.constructProps hp (some r)).2 =
      readObj (Nucleus.constructProps hp (some r)).1 (Nucleus.constructProps hp (some r)).2 ∧
    (Nucleus.updatePropsOp h2 pr ar).2 ≠ ar ∧
    readObj (heapSetField (Nucleus.updatePropsOp h2 pr ar).1 ar k2 v2)
        (Nucleus.updatePropsOp h2 pr ar).2 =
      readObj (Nucleus.updatePropsOp h2 pr ar).1 (Nucleus.updatePropsOp h2 pr ar).2 ∧
    (Bframe.updatePropsOp h2 pr ar).2 = pr ∧
    (Bframe.updatePropsOp h2 pr ar).2 ≠ ar ∧
    readObj (Bframe.updatePropsOp h2 pr ar).1 (Bframe.updatePropsOp h2 pr ar).2 =
      objAssign (readObj h2 pr) (readObj h2 ar) := by
  have hr' : hp.size ≠ r := (Nat.ne_of_lt hr).symm
  have har' : h2.size + 1 ≠ ar := by omega
  refine ⟨?_, ?_, ?_, ?_, ?_, ?_, ?_, ?_⟩
  · simp only [Nucleus.constructProps, allocObj]
    exact hr'
  · simp [Nucleus.constructProps, allocObj, readObj]
  · simp [Nucleus.constructProps, allocObj, readObj, heapSetField, writeObj, hr']
  · simp only [Nucleus.updatePropsOp, allocObj, writeObj]
    exact har'
  · simp [Nucleus.updatePropsOp, allocObj, readObj, heapSetField, writeObj, har']
  · rfl
  · exact hne
  · exact bframe_updateProps_read h2 pr ar hpr har

/-- C2 witness: concrete instantiation of `nucleus_props_cloned` on the two
demo heaps. -/
theorem nucleus_props_cloned_witness :
    (Nucleus.constructProps demoHeap (some 0)).2 ≠ 0 ∧
    readObj (Nucleus.constructProps demoHeap (some 0)).1 (Nucleus.constructProps demoHeap (some 0)).2 =
      readObj demoHeap 0 ∧
    readObj (heapSetField (Nucleus.constructProps demoHeap (some 0)).1 0 0 5)
        (Nucleus.constructProps demoHeap (some 0)).2 =
      readObj (Nucleus.constructProps demoHeap (some 0)).1 (Nucleus.constructProps demoHeap (some 0)).2 ∧
    (Nucleus.updatePropsOp demoHeap2 0 1).2 ≠ 1 ∧
    readObj (heapSetField (Nucleus.updatePropsOp demoHeap2 0 1).1 1 1 77)
        (Nucleus.updatePropsOp demoHeap2 0 1).2 =
      readObj (Nucleus.updatePropsOp demoHeap2 0 1).1 (Nucleus.updatePropsOp demoHeap2 0 1).2 ∧
    (Bframe.updatePropsOp demoHeap2 0 1).2 = 0 ∧
    (Bframe.updatePropsOp demoHeap2 0 1).2 ≠ 1 ∧
    readObj (Bframe.updatePropsOp demoHeap2 0 1).1 (Bframe.updatePropsOp demoHeap2 0 1).2 =
      objAssign (readObj demoHeap2 0) (readObj demoHeap2 1) :=
  nucleus_props_cloned demoHeap 0 0 5 (by decide) demoHeap2 0 1 1 77 (by decide) (by decide)
    (by decide)

/-- C10: the nucleus `updateProps` gives precedence to the old props:
`Object.assign(cloneDeep(props), this.props)` writes the current props over
a clone of the new ones, so every key already present in the entity's props
keeps its old value, and only keys absent from the current props are taken
from the new props argument. -/
theorem nucleus_updateProps_old_props_win (h : Heap) (pr ar k1 v1 k2 : Nat)
    (hpr : pr < h.size) (har : ar < h.size)
    (hnd : ((readObj h pr).fields.map Prod.fst).Nodup)
    (hk1 : lookupF (readObj h pr) k1 = some v1)
    (hk2 : lookupF (readObj h pr) k2 = none) :
    lookupF (readObj (Nucleus.updatePropsOp h pr ar).1 (Nucleus.updatePropsOp h pr ar).2) k1 =
      some v1 ∧
    lookupF (readObj (Nucleus.updatePropsOp h pr ar).1 (Nucleus.updatePropsOp h pr ar).2) k2 =
      lookupF (readObj h ar) k2 := by
  rw [nucleus_updateProps_read h pr ar hpr har]
  rw [lookupF_objAssign _ _ hnd k1, lookupF_objAssign _ _ hnd k2]
  rw [hk1, hk2]
  exact ⟨rfl, rfl⟩

/-- C10 witness: with current props `{1: 10, 2: 20}` and new props
`{1: 99, 3: 30}`, after `updateProps` key 1 still reads 10 (old value wins
over 99) and key 3 reads the new props' value. -/
theorem nucleus_updateProps_old_props_win_witness :
    lookupF (readObj (Nucleus.updatePropsOp demoHeap2 0 1).1 (Nucleus.updatePropsOp demoHeap2 0 1).2) 1 =
      some 10 ∧
    lookupF (readObj (Nucleus.updatePropsOp demoHeap2 0 1).1 (Nucleus.updatePropsOp demoHeap2 0 1).2) 3 =
      lookupF (readObj demoHeap2 1) 3 :=
  nucleus_updateProps_old_props_win demoHeap2 0 1 1 10 3 (by decide) (by decide)
    (by decide) (by decide) (by decide)

